import Mathlib

/-!
Verification of the med-EVE reasoning-pipeline core.

This file gives a shallow embedding, in Lean 4, of the deterministic core of
the med-EVE backend (`backend/core/kg_store.py`, `backend/core/dynamic_graph.py`,
`backend/core/evidence_builder.py`, `backend/core/reasoner_medgemma.py`,
`backend/core/guardrails.py` and the pipeline/merge helpers of `backend/app.py`),
and proves or refutes the behavioural claims made about it.

Modelling conventions:
* Python `str` is Lean `String`; the text operations the code relies on
  (`in` substring tests, `.lower()`, `.strip()`, `.split()`, `.replace()`,
  `int(...)`, string sorting) are implemented over `List Char` by structural
  recursion so that concrete runs evaluate inside the kernel.  All texts
  handled by the pipeline are ASCII, where `Char.toLower`/`Char.toUpper`
  agree with Python.
* Python floats are modelled as `ℚ`.  Numeric literals are written with
  `mkRat` so that untouched values reduce.
* Python dicts keyed by strings are association lists with
  insertion-order/overwrite semantics (`dictSet`, `alookup`); Python sets are
  lists considered up to membership, with `sorted(set)` modelled as a
  deduplicating insertion sort (Python's sort is stable, and on duplicate-free
  data any two sorts by the same key agree).
* Fallible code paths (`KeyError`, `IndexError`, `ValueError`) are modelled
  with `Option`.
* Calls into the optional LLM collaborator (`model_manager` / `agent_manager`)
  are modelled by explicit oracle parameters; the rule-based fallback paths are
  translated verbatim.  Configuration loaded from YAML/JSON at startup
  (knowledge graph, marker maps, dynamic edge rules, guardrail messages) is
  passed as parameters, since it is data, not code.
-/

/-! ## Text primitives (Python `str` operations, over `List Char`) -/

/-- Model of `startsWithL p l` : does `l` start with `p`? -/
def startsWithL : List Char → List Char → Bool
  | [], _ => true
  | _ :: _, [] => false
  | c :: cs, d :: ds => c == d && startsWithL cs ds

/-- Python `needle in hay` (substring containment). -/
def containsSubL (needle : List Char) : List Char → Bool
  | [] => needle.isEmpty
  | c :: t => startsWithL needle (c :: t) || containsSubL needle t

/-- Python `needle in hay` on strings. -/
def containsSub (needle hay : String) : Bool :=
  containsSubL needle.data hay.data

/-- Python `s.lower()` (ASCII). -/
def lowerS (s : String) : String :=
  ⟨s.data.map Char.toLower⟩

/-- Python `s.upper()` (ASCII). -/
def upperS (s : String) : String :=
  ⟨s.data.map Char.toUpper⟩

/-- Python `s.isdigit()` (ASCII digits). -/
def isDigitsL (l : List Char) : Bool :=
  !l.isEmpty && l.all (·.isDigit)

/-- Numeric value of a digit string. -/
def natFromDigits (l : List Char) : Nat :=
  l.foldl (fun n c => n * 10 + (c.toNat - 48)) 0

/-- Python `int(s)` restricted to the digit strings this code produces;
any other input raises `ValueError`, modelled as `none`. -/
def toNatQ (s : String) : Option Nat :=
  if isDigitsL s.data then some (natFromDigits s.data) else none

/-- Drop every leading occurrence of `c`. -/
def dropLeadingChar (c : Char) (l : List Char) : List Char :=
  l.dropWhile (· == c)

/-- Python `s.strip(c)` for a single-character strip set. -/
def stripCharL (c : Char) (l : List Char) : List Char :=
  dropLeadingChar c (dropLeadingChar c l.reverse).reverse

/-- Python `s.split(c)` for a single-character separator. -/
def splitOnCharL (c : Char) : List Char → List (List Char)
  | [] => [[]]
  | d :: t =>
    match splitOnCharL c t with
    | [] => [[d]]
    | h :: rest => if d == c then [] :: (h :: rest) else (d :: h) :: rest

/-- Model of `path.strip("/").split("/")`, as used by the guardrail-patch applier. -/
def splitPathParts (path : String) : List String :=
  (splitOnCharL '/' (stripCharL '/' path.data)).map (fun l => ⟨l⟩)

/-- Python `\s` for the ASCII texts handled here. -/
def isPySpace (c : Char) : Bool :=
  c == ' ' || c == '\t' || c == '\n' || c == '\x0d' || c == '\x0b' || c == '\x0c'

/-- Python `s.strip()` (whitespace, both ends). -/
def stripWsL (l : List Char) : List Char :=
  (((l.dropWhile isPySpace).reverse.dropWhile isPySpace)).reverse

/-- Collapse each whitespace run to a single space (`re.sub(r"\s+", " ", s)`);
`prevSpace` records whether the previous character was part of a run. -/
def collapseWsGo (prevSpace : Bool) : List Char → List Char
  | [] => []
  | c :: t =>
    if isPySpace c then
      if prevSpace then collapseWsGo true t else ' ' :: collapseWsGo true t
    else c :: collapseWsGo false t

/-- One pass of Python `s.replace(pat, sub)` (left-to-right, non-overlapping),
with `fuel` bounding the number of consumed characters so the recursion is
structural; call sites always use non-empty `pat`. -/
def replaceGo (pat sub : List Char) : Nat → List Char → List Char
  | _, [] => []
  | 0, l => l
  | Nat.succ f, c :: t =>
    if !pat.isEmpty && startsWithL pat (c :: t) then
      sub ++ replaceGo pat sub f (t.drop (pat.length - 1))
    else
      c :: replaceGo pat sub f t

/-- Python `s.replace(pat, sub)` for non-empty `pat`. -/
def replaceAll (s pat sub : String) : String :=
  ⟨replaceGo pat.data sub.data s.data.length s.data⟩

/-! ## Numeric and dictionary helpers -/

/-- Python `max(0, min(1, x))`. -/
def clamp01 (q : ℚ) : ℚ :=
  max 0 (min 1 q)

/-- Exact rational addition, spelled with `mkRat` so that concrete runs reduce
inside the kernel; equal to `+` (`qadd_eq`). -/
def qadd (a b : ℚ) : ℚ :=
  mkRat (a.num * b.den + b.num * a.den) (a.den * b.den)

/-- Exact rational subtraction, spelled with `mkRat` so that concrete runs
reduce inside the kernel; equal to `-` (`qsub_eq`). -/
def qsub (a b : ℚ) : ℚ :=
  mkRat (a.num * b.den - b.num * a.den) (a.den * b.den)

/-- Lookup in a Python dict modelled as an association list. -/
def alookup {α : Type} (m : List (String × α)) (k : String) : Option α :=
  (m.find? (fun kv => kv.1 == k)).map (·.2)

/-- Python `d[k] = v`: overwrite in place if present, else append
(insertion-order semantics of Python dicts). -/
def dictSet {α : Type} (m : List (String × α)) (k : String) (v : α) : List (String × α) :=
  if m.any (fun kv => kv.1 == k) then
    m.map (fun kv => if kv.1 == k then (k, v) else kv)
  else
    m ++ [(k, v)]

/-! ## Data model

Structures mirror the dict shapes flowing through the pipeline.  Python dict
keys `from`/`to` become the quoted field names `«from»`/`«to»`.  Keys that are
sometimes absent in the source dicts are `Option`-valued when some verified
code distinguishes absence (`hypotheses_valid`, `merge_updated`, patch
`value`, failed-rule `scope`, edge `source_label`); keys only ever read
through `.get(key, default)` are plain fields holding that default when the
source leaves them out. -/

/-- A knowledge-graph node (static from `graph.json`, or synthesized). -/
structure GraphNode where
  id : String
  type : String
  label : String
  description : String
  dynamic : Bool
  deriving DecidableEq

/-- A knowledge-graph edge. -/
structure GraphEdge where
  id : String
  «from» : String
  «to» : String
  relation : String
  rationale : String
  source_label : Option String
  deriving DecidableEq

/-- A retrieved (and possibly extended) subgraph. -/
structure Subgraph where
  nodes : List GraphNode
  edges : List GraphEdge
  deriving DecidableEq

/-- A normalized lab row, restricted to the fields the verified code reads
(`marker`, `status`); `value`/`unit`/reference bounds are never consulted
downstream of normalization. -/
structure Lab where
  marker : String
  status : String
  deriving DecidableEq

/-- The per-request case card (`select_context` output).  `patient_context`
only feeds prompt text for the optional model calls and is omitted. -/
structure CaseCard where
  abnormal_markers : List String
  abnormal_marker_node_ids : List String
  signals : List String
  deriving DecidableEq

/-- An evidence item produced by `build_evidence`. -/
structure EvidenceItem where
  pattern_id : String
  marker : String
  marker_node_id : String
  marker_status : String
  edge_id : String
  relation : String
  weight : ℚ
  label : String
  deriving DecidableEq

/-- The evidence bundle returned by `build_evidence`. -/
structure EvidenceBundle where
  subgraph : Subgraph
  supports : List EvidenceItem
  contradictions : List EvidenceItem
  candidate_scores : List (String × ℚ)
  top_discriminators : List EvidenceItem
  allowed_claims : List String
  deriving DecidableEq

/-- An evidence reference inside a hypothesis (`{marker, status, edge_id}`). -/
structure EvRef where
  marker : String
  status : String
  edge_id : String
  deriving DecidableEq

/-- A next-test recommendation (`{test_id, label}`). -/
structure NextTest where
  test_id : String
  label : String
  deriving DecidableEq

/-- A patient/novel action; the verified rules only read `task`, the other
fields are carried verbatim. -/
structure PAction where
  bucket : String
  task : String
  why : String
  risk : String
  deriving DecidableEq

/-- A diagnosis hypothesis. -/
structure Hypothesis where
  id : String
  name : String
  confidence : ℚ
  evidence : List EvRef
  counter_evidence : List EvRef
  next_tests : List NextTest
  what_would_change_my_mind : List String
  reasoning : String
  merge_updated : Option Bool
  deriving DecidableEq

/-- The `provenance` block of the reasoner output. -/
structure Provenance where
  kg_grounded : Bool
  notes : String
  deriving DecidableEq

/-- The reasoner output dict.  `novel_insights` payloads are opaque to every
verified function and are modelled as strings. -/
structure ReasonerOutput where
  hypotheses : List Hypothesis
  patient_actions : List PAction
  novel_actions : List PAction
  red_flags : List String
  hypotheses_valid : Option Bool
  provisional : Bool
  novel_insights : List String
  provenance : Option Provenance
  deriving DecidableEq

/-- A failed guardrail record. -/
structure FailedRule where
  id : String
  message : String
  scope : Option String
  deriving DecidableEq

/-- A guardrail patch operation (JSON-pointer-style path kept as the literal
string the source formats). -/
structure Patch where
  op : String
  path : String
  value : Option NextTest
  deriving DecidableEq

/-- The guardrail report. -/
structure GuardrailReport where
  status : String
  failed_rules : List FailedRule
  patches : List Patch
  explanations : List String
  deriving DecidableEq

/-- A critic command (`run_critic` output op). -/
structure CriticOp where
  op : String
  id : Option String
  value : Option ℚ
  scope : Option String
  index : Option Int
  deriving DecidableEq

/-! ## Graph store (`backend/core/kg_store.py`) -/

/-- The static knowledge graph (`graph.json`), loaded once at startup and
passed in as data. -/
structure KGStore where
  nodes : List GraphNode
  edges : List GraphEdge

/-- Model of `self.nodes[nid]` for the dict `{n["id"]: n for n in nodes}` (later
entries overwrite earlier ones). -/
def kgNodesFind (kg : KGStore) (nid : String) : Option GraphNode :=
  (kg.nodes.filter (fun n => n.id == nid)).getLast?

/-- Model of `nid in self.nodes`. -/
def kgHasNode (kg : KGStore) (nid : String) : Bool :=
  kg.nodes.any (fun n => n.id == nid)

/-- Model of `self.adj[n]`: every edge is appended under its `from` and under its `to`
endpoint (so a self-loop appears twice), in edge order. -/
def adjEdges (kg : KGStore) (n : String) : List GraphEdge :=
  kg.edges.flatMap (fun e =>
    (if e.«from» == n then [e] else []) ++ (if e.«to» == n then [e] else []))

/-- One level of the `get_neighbors` loop, on (current, visited) lists
considered up to membership (the source uses Python sets). -/
def bfsStep (kg : KGStore) (cv : List String × List String) : List String × List String :=
  let newly := cv.1.filter (fun n => !cv.2.contains n)
  let next := newly.flatMap (fun n =>
    (adjEdges kg n).map (fun e => if e.«from» == n then e.«to» else e.«from»))
  (next, cv.2 ++ newly)

/-- Model of `get_neighbors(node_id, hops)`: the visited set after `hops` expansion
rounds, minus the start node, as a list up to membership (the source returns
`list(visited - {node_id})`, whose order downstream code never relies on —
every consumer re-sorts or treats it as a set). -/
def getNeighbors (kg : KGStore) (nodeId : String) (hops : Nat) : List String :=
  ((bfsStep kg)^[hops] ([nodeId], [])).2.filter (fun n => !(n == nodeId))

/-- String sort used for `sorted(...)` on sets of node ids: deduplicate, then
insertion sort by code-point lexicographic order (the order Python compares
strings by); on duplicate-free input this is exactly Python's
`sorted(set(...))`. -/
def sortedStrSet (l : List String) : List String :=
  List.insertionSort (· ≤ ·) l.dedup

/-- Membership list for `set(marker_ids) & set(self.nodes.keys())`. -/
def recognizedMarkers (kg : KGStore) (markerIds : List String) : List String :=
  markerIds.filter (fun i => kgHasNode kg i)

/-- The enumeration Python's `list(marker_set)` may produce: some duplicate-free
listing of the recognized-marker set (set iteration order is unspecified). -/
def IsSetEnum (kg : KGStore) (markerIds : List String) (enum : List String) : Prop :=
  enum.Nodup ∧ enum ⊆ recognizedMarkers kg markerIds ∧ recognizedMarkers kg markerIds ⊆ enum

instance (kg : KGStore) (markerIds enum : List String) :
    Decidable (IsSetEnum kg markerIds enum) := by
  unfold IsSetEnum; infer_instance

/-- Endpoint-membership list for `edge_incident` (every endpoint of every edge
incident to a recognized marker). -/
def edgeIncidentList (kg : KGStore) (markerEnum : List String) : List String :=
  markerEnum.flatMap (fun nid => (adjEdges kg nid).flatMap (fun e => [e.«from», e.«to»]))

/-- Tier 2: `sorted(edge_incident - marker_set)`. -/
def priorityTwo (kg : KGStore) (markerEnum : List String) : List String :=
  sortedStrSet ((edgeIncidentList kg markerEnum).filter (fun x => !markerEnum.contains x))

/-- Membership list for `all_2hop`. -/
def allTwoHopList (kg : KGStore) (markerEnum : List String) (hops : Nat) : List String :=
  markerEnum ++ edgeIncidentList kg markerEnum
    ++ markerEnum.flatMap (fun m => getNeighbors kg m hops)

/-- Tier 3: `sorted(all_2hop - marker_set - edge_incident)`. -/
def priorityThree (kg : KGStore) (markerEnum : List String) (hops : Nat) : List String :=
  sortedStrSet ((allTwoHopList kg markerEnum hops).filter
    (fun x => !markerEnum.contains x && !(edgeIncidentList kg markerEnum).contains x))

/-- The ordered node-id candidate list of `subgraph_from_markers` before
truncation. -/
def orderedNodeIds (kg : KGStore) (markerEnum : List String) (hops : Nat) : List String :=
  markerEnum ++ priorityTwo kg markerEnum ++ priorityThree kg markerEnum hops

/-- Model of `subgraph_from_markers(marker_ids, hops=2, max_nodes=60)`, parameterized by
`markerEnum`, the enumeration Python's `list(marker_set)` yields. -/
def subgraph_from_markers (kg : KGStore) (markerEnum : List String)
    (hops maxNodes : Nat) : Subgraph :=
  let allNodes := (orderedNodeIds kg markerEnum hops).take maxNodes
  { nodes := allNodes.filterMap (fun nid => kgNodesFind kg nid)
    edges := kg.edges.filter (fun e => allNodes.contains e.«from» && allNodes.contains e.«to») }

/-! ## Dynamic graph extender (`backend/core/dynamic_graph.py`) -/

/-- A rule row of `dynamic_marker_edges.yml`; a missing `pattern_id` /
`relation` / `rationale` key is the empty string (both `None` and `""` are
falsy where the source tests them). -/
structure DynRule where
  pattern_id : String
  relation : String
  rationale : String
  deriving DecidableEq

/-- Suggested edge rows of `suggested_kg_additions`. -/
structure SuggestedEdge where
  «from» : String
  «to» : String
  relation : String
  rationale : String
  deriving DecidableEq

/-- Model of `suggested_kg_additions`. -/
structure SuggestedAdditions where
  nodes : List GraphNode
  edges : List SuggestedEdge
  deriving DecidableEq

/-- Model of `_marker_to_nid` / `_nid_from_marker`: canonical node id for a marker,
from the `marker_to_node.yml` map with an `m_`-prefixed fallback. -/
def markerToNid (markerToNode : List (String × String)) (marker : String) : String :=
  (alookup markerToNode marker).getD ("m_" ++ replaceAll (lowerS marker) " " "_")

/-- Model of `config.get(marker_name) or config.get(node_id) or []` (an absent key and
a present-but-empty rule list are both falsy). -/
def dynRulesFor (cfg : List (String × List DynRule)) (markerName nodeId : String) :
    List DynRule :=
  let rs1 := (alookup cfg markerName).getD []
  if rs1.isEmpty then (alookup cfg nodeId).getD [] else rs1

/-- Model of `e_dyn_{safe_m}_{safe_p}_{counter}` edge-id synthesis. -/
def dynEdgeId (markerNodeId patternId : String) (counter : Nat) : String :=
  "e_dyn_" ++ replaceAll markerNodeId "m_" "" ++ "_"
    ++ replaceAll patternId "p_" "" ++ "_" ++ toString counter

/-- Loop state of `extend_subgraph`. -/
structure ExtendAcc where
  nodes : List GraphNode
  edges : List GraphEdge
  nodeIds : List String
  suggNodes : List GraphNode
  suggEdges : List SuggestedEdge
  counter : Nat

/-- Inner rule loop of `extend_subgraph` for one dynamic node. -/
def extendApplyRule (signals : List String) (nodeId : String) (acc : ExtendAcc)
    (rule : DynRule) : ExtendAcc :=
  if rule.pattern_id == "" || !signals.contains rule.pattern_id then acc
  else if !acc.nodeIds.contains rule.pattern_id then acc
  else
    let relation := if rule.relation == "" then "SUPPORTS" else rule.relation
    let counter := acc.counter + 1
    let edgeId := dynEdgeId nodeId rule.pattern_id counter
    let edgePayload : GraphEdge :=
      { id := edgeId, «from» := nodeId, «to» := rule.pattern_id,
        relation := relation, rationale := rule.rationale,
        source_label := some "dynamic" }
    let suggPayload : SuggestedEdge :=
      { «from» := nodeId, «to» := rule.pattern_id,
        relation := relation, rationale := rule.rationale }
    { acc with
      edges := acc.edges ++ [edgePayload]
      suggEdges := acc.suggEdges ++ [suggPayload]
      counter := counter }

/-- Outer loop body of `extend_subgraph` for one dynamic node id. -/
def extendOneNode (cfg : List (String × List DynRule))
    (markerToLabel : List (String × String)) (signals : List String)
    (acc : ExtendAcc) (nodeId : String) : ExtendAcc :=
  let label := (alookup markerToLabel nodeId).getD nodeId
  let nodePayload : GraphNode :=
    { id := nodeId, type := "Marker", label := label,
      description := "User-provided lab (not in knowledge graph).", dynamic := true }
  let acc := { acc with
    nodes := acc.nodes ++ [nodePayload]
    suggNodes := acc.suggNodes ++ [nodePayload]
    nodeIds := acc.nodeIds ++ [nodeId] }
  (dynRulesFor cfg label nodeId).foldl (extendApplyRule signals nodeId) acc

/-- Model of `extend_subgraph(case_card, subgraph)`, parameterized by the
`marker_to_node.yml` map and the `dynamic_marker_edges.yml` rule table. -/
def extend_subgraph (markerToNode : List (String × String))
    (cfg : List (String × List DynRule)) (cc : CaseCard) (sg : Subgraph) :
    Subgraph × SuggestedAdditions :=
  let subgraphNodeIds := sg.nodes.map (fun n => n.id)
  let markerToLabel := cc.abnormal_markers.foldl
    (fun m mk => dictSet m (markerToNid markerToNode mk) mk) []
  let dynamicIds := cc.abnormal_marker_node_ids.filter
    (fun nid => !subgraphNodeIds.contains nid)
  let acc0 : ExtendAcc :=
    { nodes := sg.nodes, edges := sg.edges, nodeIds := subgraphNodeIds,
      suggNodes := [], suggEdges := [], counter := 0 }
  let acc := dynamicIds.foldl (extendOneNode cfg markerToLabel cc.signals) acc0
  (⟨acc.nodes, acc.edges⟩, ⟨acc.suggNodes, acc.suggEdges⟩)

/-! ## Evidence scorer (`backend/core/evidence_builder.py`) -/

/-- A value of the nested `WEIGHTS` table: either a bare float or a
relation-keyed sub-dict. -/
inductive WVal where
  | num : ℚ → WVal
  | tbl : List (String × ℚ) → WVal
  deriving DecidableEq

/-- The rule-based evidence weight table. -/
def WEIGHTS : List (String × List (String × WVal)) :=
  [ ("hsCRP", [("SUPPORTS", WVal.num (mkRat 8 10)), ("CONTRADICTS", WVal.num (mkRat 0 10))]),
    ("Ferritin",
      [ ("HIGH", WVal.tbl [("SUPPORTS", mkRat 7 10), ("CONTRADICTS", mkRat 6 10)]),
        ("LOW", WVal.tbl [("SUPPORTS", mkRat 6 10), ("CONTRADICTS", mkRat 7 10)])]),
    ("Iron", [("LOW", WVal.tbl [("SUPPORTS", mkRat 5 10), ("CONTRADICTS", mkRat 4 10)])]),
    ("TSAT", [("LOW", WVal.tbl [("SUPPORTS", mkRat 4 10), ("CONTRADICTS", mkRat 3 10)])]),
    ("Hb", [("LOW", WVal.tbl [("SUPPORTS", mkRat 3 10), ("CONTRADICTS", mkRat 2 10)])]),
    ("RDW", [("NORMAL", WVal.tbl [("SUPPORTS", mkRat 2 10), ("CONTRADICTS", mkRat 1 10)])]) ]

/-- Model of `_infer_support_relation`: map causal relations to SUPPORTS/CONTRADICTS
when the lab status has a direction. -/
def infer_support_relation (relation status : String) : String :=
  if !(status == "HIGH" || status == "LOW") then ""
  else if relation == "INCREASES" then (if status == "HIGH" then "SUPPORTS" else "CONTRADICTS")
  else if relation == "DECREASES" then (if status == "LOW" then "SUPPORTS" else "CONTRADICTS")
  else ""

/-- The rule-based branch of `get_evidence_weight` (`WEIGHTS` lookup with
`_coerce_weight` defaults; coercing a sub-dict raises and falls back to 0.1). -/
def ruleWeight (marker status relation : String) : ℚ :=
  match alookup WEIGHTS marker with
  | none => mkRat 1 10
  | some mw =>
    match alookup mw status with
    | some (WVal.tbl tw) => (alookup tw relation).getD (mkRat 1 10)
    | some (WVal.num q) => q
    | none =>
      match alookup mw relation with
      | some (WVal.num q) => q
      | some (WVal.tbl _) => mkRat 1 10
      | none => mkRat 1 10

/-- The optional model-assisted weighting path (agent gating, model call,
`_coerce_weight` of its JSON, exception fallback) collapsed into an oracle:
`some w` when the agent path is taken and returns, `none` for the rule-based
fallback.  The claims hold for every oracle. -/
def get_evidence_weight (agent : String → String → String → String → Option ℚ)
    (marker status relation patternId : String) : ℚ :=
  match agent marker status relation patternId with
  | some w => w
  | none => ruleWeight marker status relation

/-- Model of `_pattern_label`: resolve a pattern label from the global store, else the
subgraph, else the id (empty labels are falsy). -/
def patternLabel (kg : KGStore) (patternId : String) (sg : Subgraph) : String :=
  match kgNodesFind kg patternId with
  | some n => if n.label == "" then patternId else n.label
  | none =>
    match sg.nodes.find? (fun n => n.id == patternId) with
    | some n => if n.label == "" then patternId else n.label
    | none => patternId

/-- The fixed `allowed_claims` list of `build_evidence`. -/
def ALLOWED_CLAIMS : List String :=
  [ "Possible iron deficiency pattern",
    "Recommend TSAT test",
    "Avoid iron supplementation as first-line if inflammation pattern present" ]

/-- Accumulator of the `build_evidence` scan. -/
structure EvState where
  supports : List EvidenceItem
  contradictions : List EvidenceItem
  scores : List (String × ℚ)
  discs : List EvidenceItem

/-- Model of `candidate_scores[pid] = 0.5` baseline initialization. -/
def initScores (signals : List String) : List (String × ℚ) :=
  signals.foldl (fun m pid => dictSet m pid (mkRat 1 2)) []

/-- Model of `candidate_scores[pid] += w` / `-= w` (the key always exists: `pid` is an
active signal and every signal is initialized). -/
def updateScore (m : List (String × ℚ)) (k : String) (f : ℚ → ℚ) : List (String × ℚ) :=
  m.map (fun kv => if kv.1 == k then (kv.1, f kv.2) else kv)

/-- The check "Determine if edge connects to a pattern": the edge endpoint that is an
active signal, `from` first. -/
def edgePattern (signals : List String) (edge : GraphEdge) : Option String :=
  if signals.contains edge.«from» then some edge.«from»
  else if signals.contains edge.«to» then some edge.«to»
  else none

/-- The per-item state update at the end of the `build_evidence` loop body:
SUPPORTS appends to `supports` and adds the weight, CONTRADICTS appends to
`contradictions` and subtracts it, anything else leaves the scores alone; the
item always lands in the discriminator list. -/
def pushItem (st : EvState) (item : EvidenceItem) (scoringRelation patternId : String) :
    EvState :=
  let st :=
    if scoringRelation == "SUPPORTS" then
      { st with
        supports := st.supports ++ [item]
        scores := updateScore st.scores patternId (fun s => qadd s item.weight) }
    else if scoringRelation == "CONTRADICTS" then
      { st with
        contradictions := st.contradictions ++ [item]
        scores := updateScore st.scores patternId (fun s => qsub s item.weight) }
    else st
  { st with discs := st.discs ++ [item] }

/-- The `scoring_relation` normalization: INCREASES/DECREASES are replaced by
the inferred SUPPORTS/CONTRADICTS when the status direction allows one. -/
def scoringRelationOf (relation status : String) : String :=
  if relation == "INCREASES" || relation == "DECREASES" then
    let inferred := infer_support_relation relation status
    if inferred == "" then relation else inferred
  else relation

/-- Per-edge body of the `build_evidence` loop for one abnormal marker. -/
def processEdge (agent : String → String → String → String → Option ℚ)
    (kg : KGStore) (sg : Subgraph) (signals : List String)
    (marker nid status : String) (st : EvState) (edge : GraphEdge) : EvState :=
  if edge.«from» == nid || edge.«to» == nid then
    match edgePattern signals edge with
    | none => st
    | some patternId =>
      let relation := edge.relation
      let weight := get_evidence_weight agent marker status relation patternId
      let item : EvidenceItem :=
        { pattern_id := patternId, marker := marker, marker_node_id := nid,
          marker_status := status, edge_id := edge.id, relation := relation,
          weight := weight,
          label := marker ++ " " ++ status ++ " " ++ lowerS relation ++ " "
            ++ patternLabel kg patternId sg }
      pushItem st item (scoringRelationOf relation status) patternId
  else st

/-- Descending stable order on evidence weight
(`sort(key=lambda x: x["weight"], reverse=True)`). -/
def weightDesc (a b : EvidenceItem) : Prop :=
  b.weight ≤ a.weight

instance : DecidableRel weightDesc := fun a b => Rat.instDecidableLe b.weight a.weight

instance : IsTotal EvidenceItem weightDesc :=
  ⟨fun a b => le_total b.weight a.weight⟩

instance : IsTrans EvidenceItem weightDesc :=
  ⟨fun _ _ _ h1 h2 => le_trans h2 h1⟩

/-- Model of `build_evidence(case_card, subgraph, normalized_labs)`.  The events
parameters only emit UI telemetry and are dropped; `marker_status[marker]`
raising `KeyError` (an abnormal marker absent from the lab list) is `none`. -/
def build_evidence (agent : String → String → String → String → Option ℚ)
    (kg : KGStore) (cc : CaseCard) (sg : Subgraph) (labs : List Lab) :
    Option EvidenceBundle :=
  let markerStatus := labs.foldl (fun m lab => dictSet m lab.marker lab.status) []
  let st0 : EvState := ⟨[], [], initScores cc.signals, []⟩
  let scan := (cc.abnormal_markers.zip cc.abnormal_marker_node_ids).foldl
    (fun ost mk => ost.bind (fun st =>
      (alookup markerStatus mk.1).map (fun status =>
        sg.edges.foldl (processEdge agent kg sg cc.signals mk.1 mk.2 status) st)))
    (some st0)
  scan.map (fun st =>
    { subgraph := sg
      supports := st.supports
      contradictions := st.contradictions
      candidate_scores := st.scores.map (fun kv => (kv.1, clamp01 kv.2))
      top_discriminators := (List.insertionSort weightDesc st.discs).take 5
      allowed_claims := ALLOWED_CLAIMS })

/-! ## Hybrid reasoner (`backend/core/reasoner_medgemma.py`) -/

/-- Model of `PATTERN_TO_CONDITION`. -/
def PATTERN_TO_CONDITION : List (String × String) :=
  [ ("p_iron_def", "Iron deficiency anemia"),
    ("p_inflam_iron_seq", "Anemia of inflammation"),
    ("p_hypothyroid", "Hypothyroidism") ]

/-- Model of `_condition_label`: condition name from `PATTERN_TO_CONDITION`, then the
global store, then the bundle's subgraph, else "Unknown condition". -/
def conditionLabel (kg : KGStore) (patternId : String) (bundle : EvidenceBundle) : String :=
  match alookup PATTERN_TO_CONDITION patternId with
  | some c => c
  | none =>
    match kgNodesFind kg patternId with
    | some n => if n.label == "" then "Unknown condition" else n.label
    | none =>
      match bundle.subgraph.nodes.find? (fun n => n.id == patternId) with
      | some n => if n.label == "" then "Unknown condition" else n.label
      | none => "Unknown condition"

/-- Pattern-specific next tests of `_reason_lite_mode`. -/
def liteNextTests (patternId : String) : List NextTest :=
  if patternId == "p_inflam_iron_seq" then
    [{ test_id := "t_stfr", label := "Soluble transferrin receptor (sTfR)" }]
  else if patternId == "p_iron_def" then
    [{ test_id := "t_ferritin", label := "Ferritin measurement" }]
  else if patternId == "p_hypothyroid" then
    [{ test_id := "t_tpo_ab", label := "Thyroid peroxidase antibodies" }]
  else []

/-- Pattern-specific "what would change my mind" lists of `_reason_lite_mode`. -/
def liteWhatWouldChange (patternId : String) : List String :=
  if patternId == "p_inflam_iron_seq" then
    [ "If ferritin decreases over time", "If CRP normalizes",
      "If sTfR is elevated (suggests true iron deficiency)" ]
  else if patternId == "p_iron_def" then
    [ "If ferritin increases with iron supplementation", "If MCV normalizes",
      "If inflammation markers appear" ]
  else if patternId == "p_hypothyroid" then
    [ "If TSH normalizes", "If thyroid antibodies are negative",
      "If symptoms resolve with treatment" ]
  else []

/-- Confidence qualifier suffix of `_reason_lite_mode`. -/
def liteQualifier (confidence : ℚ) : String :=
  if mkRat 7 10 ≤ confidence then "likely"
  else if mkRat 4 10 ≤ confidence then "possible"
  else "unlikely but considered"

/-- Descending stable order on the candidate-score value
(`sorted(scores.items(), key=lambda x: x[1], reverse=True)`). -/
def scoreDesc (a b : String × ℚ) : Prop :=
  b.2 ≤ a.2

instance : DecidableRel scoreDesc := fun a b => Rat.instDecidableLe b.2 a.2

instance : IsTotal (String × ℚ) scoreDesc :=
  ⟨fun a b => le_total b.2 a.2⟩

instance : IsTrans (String × ℚ) scoreDesc :=
  ⟨fun _ _ _ h1 h2 => le_trans h2 h1⟩

/-- One hypothesis of `_reason_lite_mode` (loop body at `enumerate` index
`idx` for pattern `patternId` with score `confidence`). -/
def liteHypothesis (kg : KGStore) (bundle : EvidenceBundle) (idx : Nat)
    (patternId : String) (confidence : ℚ) : Hypothesis :=
  let condition := conditionLabel kg patternId bundle
  { id := "H" ++ toString (idx + 1)
    name := condition ++ " (" ++ liteQualifier confidence ++ ")"
    confidence := confidence
    evidence := (bundle.top_discriminators.filter (fun i => i.pattern_id == patternId)).map
      (fun i => { marker := i.marker, status := i.marker_status, edge_id := i.edge_id })
    counter_evidence := (bundle.contradictions.filter (fun i => i.pattern_id == patternId)).map
      (fun i => { marker := i.marker, status := i.marker_status, edge_id := i.edge_id })
    next_tests := liteNextTests patternId
    what_would_change_my_mind := liteWhatWouldChange patternId
    reasoning := ""
    merge_updated := none }

/-- The `patient_actions` block of `_reason_lite_mode`. -/
def litePatientActions (scores : List (String × ℚ))
    (sortedPatterns : List (String × ℚ)) : List PAction :=
  match sortedPatterns.head? with
  | some top =>
    if top.1 == "p_inflam_iron_seq" then
      let ironVals := (["p_inflam_iron_seq", "p_iron_def"].filter
        (fun p => (alookup scores p).isSome)).map (fun p => (alookup scores p).getD 0)
      let both :=
        match ironVals with
        | [a, b] => decide (mkRat 3 10 < min a b)
        | _ => false
      if both then
        [{ bucket := "tests",
           task := "Consider sTfR test to differentiate between inflammation and iron deficiency",
           why := "Both patterns are possible - sTfR helps distinguish", risk := "low" }]
      else
        [{ bucket := "tests",
           task := "Ask clinician about sTfR or repeat iron studies",
           why := "Differentiate mixed picture", risk := "low" }]
    else []
  | none => []

/-- Model of `_reason_lite_mode(case_card, evidence_bundle)`: deterministic rule-based
hypothesis generation.  On the empty-scores early return, the source emits a
dict with only `hypotheses` / `patient_actions` / `red_flags`; the remaining
fields hold the values `.get` would default them to, and the absent
`hypotheses_valid` key is `none`. -/
def reason_lite_mode (kg : KGStore) (bundle : EvidenceBundle) : ReasonerOutput :=
  let scores := bundle.candidate_scores
  if scores.isEmpty then
    { hypotheses := [], patient_actions := [], red_flags := [],
      hypotheses_valid := none, provisional := false, novel_insights := [],
      novel_actions := [], provenance := none }
  else
    let sortedPatterns := List.insertionSort scoreDesc scores
    let hypotheses := (List.enum sortedPatterns).foldl
      (fun acc ip =>
        if ip.2.2 < mkRat 1 10 then acc
        else acc ++ [liteHypothesis kg bundle ip.1 ip.2.1 ip.2.2]) []
    { hypotheses := hypotheses
      patient_actions := litePatientActions scores sortedPatterns
      red_flags := []
      hypotheses_valid := some (!hypotheses.isEmpty)
      provisional := false
      novel_insights := []
      novel_actions := []
      provenance := some
        { kg_grounded := true, notes := "Lite mode: KG-grounded reasoning only." } }

/-- Model of `_parse_ranking_line`, with the regex scan modelled as the list of
`(id, value)` matches it extracts from the model's text: keep only values in
`[0, 1]`, keyed by the upper-cased id (later matches overwrite). -/
def parse_ranking_line (ms : List (String × ℚ)) : List (String × ℚ) :=
  ms.foldl
    (fun out m => if 0 ≤ m.2 ∧ m.2 ≤ 1 then dictSet out (upperS m.1) m.2 else out) []

/-- Confidence-update body of `_model_rank_hypotheses`: when the parsed
ranking is non-empty, overwrite the confidence of every hypothesis whose
upper-cased id has a ranking entry. -/
def model_rank_hypotheses (ranking : List (String × ℚ))
    (hypotheses : List Hypothesis) : List Hypothesis :=
  if ranking.isEmpty then hypotheses
  else hypotheses.map (fun h =>
    match alookup ranking (upperS h.id) with
    | some v => { h with confidence := v }
    | none => h)

/-! ## Guardrail engine (`backend/core/guardrails.py`) -/

/-- Model of `ALLOWED_BUCKETS`. -/
def ALLOWED_BUCKETS : List String :=
  ["tests", "scheduling", "questions for clinician", "low-risk defaults"]

/-- Model of `ANTIBODY_KEYWORDS`. -/
def ANTIBODY_KEYWORDS : List String :=
  ["tpo", "antibody", "antibodies", "tpoab", "anti-tpo"]

/-- Model of `_rule_message`: YAML message when available, else the fallback.  The
`guardrails.yml` id→message map is the parameter `ruleMsg`. -/
def ruleMessage (ruleMsg : String → Option String) (ruleId fallback : String) : String :=
  (ruleMsg ruleId).getD fallback

/-- Model of `_task_in_allowed_buckets`. -/
def task_in_allowed_buckets (taskLower : String) : Bool :=
  if containsSub "test" taskLower then true
  else (ALLOWED_BUCKETS.filter (fun b => !(b == "tests"))).any
    (fun b => containsSub b taskLower)

/-- The GR_001/GR_003/GR_004 checks of `_apply_action_guardrails` for the
action at index `i`, in source order. -/
def actionChecks (ruleMsg : String → Option String) (inflammationPattern : Bool)
    (scope : String) (i : Nat) (action : PAction) : List FailedRule × List Patch :=
  let taskLower := lowerS action.task
  let path : String := "/" ++ scope ++ "/" ++ toString i
  let r1 :=
    if containsSub "iron" taskLower && containsSub "supplement" taskLower
        && inflammationPattern then
      ([({ id := "GR_001",
           message := ruleMessage ruleMsg "GR_001"
             "Iron supplementation blocked under inflammation pattern.",
           scope := some scope } : FailedRule)],
       [({ op := "remove", path := path, value := none } : Patch)])
    else ([], [])
  let r3 :=
    if ["mg", "dose", "supplement"].any (fun w => containsSub w taskLower) then
      ([({ id := "GR_003",
           message := ruleMessage ruleMsg "GR_003" "No dosing recommendations allowed.",
           scope := some scope } : FailedRule)],
       [({ op := "remove", path := path, value := none } : Patch)])
    else ([], [])
  let r4 :=
    if !task_in_allowed_buckets taskLower then
      ([({ id := "GR_004",
           message := ruleMessage ruleMsg "GR_004"
             ("Action \x27" ++ action.task ++ "\x27 not in allowed buckets."),
           scope := some scope } : FailedRule)],
       [({ op := "remove", path := path, value := none } : Patch)])
    else ([], [])
  (r1.1 ++ r3.1 ++ r4.1, r1.2 ++ r3.2 ++ r4.2)

/-- Model of `_apply_action_guardrails(actions, inflammation_pattern, …, scope)`:
accumulated failed rules and patches, in enumeration order. -/
def apply_action_guardrails (ruleMsg : String → Option String)
    (actions : List PAction) (inflammationPattern : Bool) (scope : String) :
    List FailedRule × List Patch :=
  (List.enum actions).foldl
    (fun acc ia =>
      let r := actionChecks ruleMsg inflammationPattern scope ia.1 ia.2
      (acc.1 ++ r.1, acc.2 ++ r.2))
    ([], [])

/-- Model of `_contains_antibody_language`. -/
def containsAntibodyLanguage (text : String) : Bool :=
  ANTIBODY_KEYWORDS.any (fun k => containsSub k (lowerS text))

/-- Model of `_has_antibody_confirmation`. -/
def hasAntibodyConfirmation (normalizedLabs : List Lab) : Bool :=
  normalizedLabs.any (fun lab => containsAntibodyLanguage (lowerS lab.marker))

/-- Model of `_has_antibody_recommendation`. -/
def hasAntibodyRecommendation (ro : ReasonerOutput) : Bool :=
  ro.hypotheses.any (fun h => h.next_tests.any (fun t =>
      containsAntibodyLanguage t.label || containsAntibodyLanguage t.test_id))
  || (ro.patient_actions ++ ro.novel_actions).any
      (fun a => containsAntibodyLanguage a.task)

/-- Model of `_apply_hashimoto_confirmation_guardrail` (GR_002): flag the first
Hashimoto hypothesis and append the TPOAb test recommendation, unless
antibody labs or recommendations already exist. -/
def applyHashimotoGuardrail (ruleMsg : String → Option String)
    (ro : ReasonerOutput) (normalizedLabs : List Lab) :
    List FailedRule × List Patch :=
  if hasAntibodyConfirmation normalizedLabs || hasAntibodyRecommendation ro then
    ([], [])
  else
    match ro.hypotheses.findIdx? (fun h => containsSub "hashimoto" (lowerS h.name)) with
    | some hIdx =>
      let fr : FailedRule :=
        { id := "GR_002"
          message := ruleMessage ruleMsg "GR_002" "Hashimoto requires antibody confirmation."
          scope := none }
      let tpoTest : NextTest :=
        { test_id := "t_tpo_ab", label := "Thyroid peroxidase antibodies (TPOAb)" }
      let p : Patch :=
        { op := "add"
          path := "/hypotheses/" ++ toString hIdx ++ "/next_tests/-"
          value := some tpoTest }
      ([fr], [p])
    | none => ([], [])

/-- GR_005 ("no invention"): strike every hypothesis-evidence entry whose
marker is not among the input lab markers. -/
def noInventionChecks (ruleMsg : String → Option String)
    (hypotheses : List Hypothesis) (allMarkers : List String) :
    List FailedRule × List Patch :=
  (List.enum hypotheses).foldl
    (fun acc ih =>
      (List.enum ih.2.evidence).foldl
        (fun acc ie =>
          if !allMarkers.contains ie.2.marker then
            let fr : FailedRule :=
              { id := "GR_005"
                message := ruleMessage ruleMsg "GR_005"
                  ("Marker \x27" ++ ie.2.marker ++ "\x27 not in input.")
                scope := none }
            let p : Patch :=
              { op := "remove"
                path := "/hypotheses/" ++ toString ih.1 ++ "/evidence/" ++ toString ie.1
                value := none }
            (acc.1 ++ [fr], acc.2 ++ [p])
          else acc)
        acc)
    ([], [])

/-- Model of `check_guardrails(reasoner_output, case_card, normalized_labs)`.  The
model-generated `explanations` run only when a model is loaded and never
change status or patches; they are modelled as the empty list (lite mode). -/
def check_guardrails (ruleMsg : String → Option String) (ro : ReasonerOutput)
    (cc : CaseCard) (normalizedLabs : List Lab) : GuardrailReport :=
  let inflammationPattern := cc.signals.contains "p_inflam_iron_seq"
  let pa := apply_action_guardrails ruleMsg ro.patient_actions inflammationPattern "patient_actions"
  let na := apply_action_guardrails ruleMsg ro.novel_actions inflammationPattern "novel_actions"
  let hg := applyHashimotoGuardrail ruleMsg ro normalizedLabs
  let allMarkers := normalizedLabs.map (fun lab => lab.marker)
  let ni := noInventionChecks ruleMsg ro.hypotheses allMarkers
  let failedRules := pa.1 ++ na.1 ++ hg.1 ++ ni.1
  let patches := pa.2 ++ na.2 ++ hg.2 ++ ni.2
  { status := if failedRules.isEmpty then "PASS" else "FAIL"
    failed_rules := failedRules
    patches := patches
    explanations := [] }

/-! ## Pipeline and merge helpers (`backend/app.py`) -/

/-- Model of `del obj[idx]` guarded by `0 <= idx < len(obj)`; out-of-range removals are
skipped with a diagnostic. -/
def delAt {α : Type} (l : List α) (idx : Nat) : List α :=
  if idx < l.length then l.eraseIdx idx else l

/-- A `remove` guardrail patch, as applied by `_run_pipeline`: walk the path
prefix (a `KeyError`/`IndexError`/`ValueError` on the walk crashes the run,
modelled `none`), then delete at the final index if it is in range, else skip.
The embedding is specialized to the path shapes `check_guardrails` emits plus
the other list-valued keys of the output dict; any other path would make the
source's generic dict/list walk raise. -/
def applyRemovePatch (ro : ReasonerOutput) (parts : List String) : Option ReasonerOutput :=
  match parts with
  | [k, i] =>
    match toNatQ i with
    | none => none
    | some idx =>
      if k == "patient_actions" then
        some { ro with patient_actions := delAt ro.patient_actions idx }
      else if k == "novel_actions" then
        some { ro with novel_actions := delAt ro.novel_actions idx }
      else if k == "hypotheses" then
        some { ro with hypotheses := delAt ro.hypotheses idx }
      else if k == "red_flags" then
        some { ro with red_flags := delAt ro.red_flags idx }
      else if k == "novel_insights" then
        some { ro with novel_insights := delAt ro.novel_insights idx }
      else none
  | [k1, hi, k2, i] =>
    if k1 == "hypotheses" then
      match toNatQ hi with
      | none => none
      | some h =>
        if hh : h < ro.hypotheses.length then
          match toNatQ i with
          | none => none
          | some idx =>
            let hypo := ro.hypotheses.get ⟨h, hh⟩
            if k2 == "evidence" then
              some { ro with hypotheses :=
                ro.hypotheses.set h { hypo with evidence := delAt hypo.evidence idx } }
            else if k2 == "counter_evidence" then
              some { ro with hypotheses :=
                ro.hypotheses.set h { hypo with counter_evidence := delAt hypo.counter_evidence idx } }
            else if k2 == "next_tests" then
              some { ro with hypotheses :=
                ro.hypotheses.set h { hypo with next_tests := delAt hypo.next_tests idx } }
            else none
        else none
    else none
  | _ => none

/-- An `add` guardrail patch, as applied by `_run_pipeline`: walk the path
prefix, then append on target `-`, insert at an in-range numeric target, or
skip.  `check_guardrails` only emits adds under `next_tests` with the append
target (the dash) and with
a concrete value; other paths would make the source's generic walk raise or
graft untyped containers, and an absent value would append Python `None` —
both modelled `none`. -/
def applyAddPatch (ro : ReasonerOutput) (parts : List String) (value : Option NextTest) :
    Option ReasonerOutput :=
  match parts with
  | [k1, hi, k2, tgt] =>
    if k1 == "hypotheses" && k2 == "next_tests" then
      match toNatQ hi with
      | none => none
      | some h =>
        if hh : h < ro.hypotheses.length then
          let hypo := ro.hypotheses.get ⟨h, hh⟩
          if tgt == "-" then
            match value with
            | some v =>
              some { ro with hypotheses :=
                ro.hypotheses.set h { hypo with next_tests := hypo.next_tests ++ [v] } }
            | none => none
          else
            match toNatQ tgt with
            | some idx =>
              if idx ≤ hypo.next_tests.length then
                match value with
                | some v =>
                  some { ro with hypotheses :=
                    ro.hypotheses.set h { hypo with next_tests := hypo.next_tests.insertIdx idx v } }
                | none => none
              else some ro
            | none => some ro
        else none
    else none
  | _ => none

/-- One guardrail patch, as applied by the loop in `_run_pipeline`
(ops other than `remove`/`add` are silently ignored). -/
def applyPatch (ro : ReasonerOutput) (p : Patch) : Option ReasonerOutput :=
  if p.op == "remove" then applyRemovePatch ro (splitPathParts p.path)
  else if p.op == "add" then applyAddPatch ro (splitPathParts p.path) p.value
  else some ro

/-- The `_run_pipeline` guardrail-patch loop: apply the report's patches in
emitted order. -/
def applyPatches (ro : ReasonerOutput) (ps : List Patch) : Option ReasonerOutput :=
  ps.foldl (fun o p => o.bind (fun r => applyPatch r p)) (some ro)

/-- Descending stable order on hypothesis confidence
(`sorted(key=lambda h: float(h.get("confidence", 0)), reverse=True)`). -/
def confDesc (a b : Hypothesis) : Prop :=
  b.confidence ≤ a.confidence

instance : DecidableRel confDesc := fun a b => Rat.instDecidableLe b.confidence a.confidence

instance : IsTotal Hypothesis confDesc :=
  ⟨fun a b => le_total b.confidence a.confidence⟩

instance : IsTrans Hypothesis confDesc :=
  ⟨fun _ _ _ h1 h2 => le_trans h2 h1⟩

/-- Model of `_apply_critic_ops(reasoner_output, ops)`: remove hypotheses by id, then
clamp-lower confidences, then remove actions by scope/index, then re-sort
hypotheses by confidence descending.  `float(op["value"])` raising on a
non-numeric value is unrepresentable for a typed `ℚ` payload (the source
skips the update in that case). -/
def apply_critic_ops (ro : ReasonerOutput) (ops : List CriticOp) : ReasonerOutput :=
  let ro := ops.foldl
    (fun ro op =>
      if op.op == "remove_hypothesis" then
        match op.id with
        | some hid =>
          if hid == "" then ro
          else { ro with hypotheses :=
            ro.hypotheses.filter (fun h => !(upperS h.id == hid)) }
        | none => ro
      else ro) ro
  let ro := ops.foldl
    (fun ro op =>
      if op.op == "lower_confidence" then
        match op.id, op.value with
        | some hid, some v =>
          if hid == "" then ro
          else { ro with hypotheses := ro.hypotheses.map (fun h =>
            if upperS h.id == hid then { h with confidence := max 0 (min 1 v) } else h) }
        | _, _ => ro
      else ro) ro
  let ro := ops.foldl
    (fun ro op =>
      if op.op == "remove_action" then
        match op.scope, op.index with
        | some scope, some idx =>
          if scope == "patient_actions" then
            (if 0 ≤ idx ∧ idx.toNat < ro.patient_actions.length then
              { ro with patient_actions := ro.patient_actions.eraseIdx idx.toNat }
            else ro)
          else if scope == "novel_actions" then
            (if 0 ≤ idx ∧ idx.toNat < ro.novel_actions.length then
              { ro with novel_actions := ro.novel_actions.eraseIdx idx.toNat }
            else ro)
          else ro
        | _, _ => ro
      else ro) ro
  if ro.hypotheses.isEmpty then ro
  else { ro with hypotheses := List.insertionSort confDesc ro.hypotheses }

/-- Model of `_normalize_hypothesis_name`. -/
def normalizeHypothesisName (name : String) : String :=
  if name == "" then ""
  else ⟨collapseWsGo false ((stripWsL name.data).map Char.toLower)⟩

/-- Model of `_hypothesis_key`: the id, or the normalized name when the id is falsy. -/
def hypothesis_key (h : Hypothesis) : String :=
  if h.id == "" then normalizeHypothesisName h.name else h.id

/-- Model of `_evidence_signature` as a list of `(marker, status, edge_id)` triples;
the source compares the corresponding Python sets, modelled by `setEqL`. -/
def evidenceSignature (items : List EvRef) : List (String × String × String) :=
  items.map (fun i => (i.marker, i.status, i.edge_id))

/-- Set equality of two lists (Python `set(a) == set(b)`). -/
def setEqL {α : Type} [DecidableEq α] (xs ys : List α) : Bool :=
  xs.all (fun x => ys.contains x) && ys.all (fun y => xs.contains y)

/-- Model of `_hypothesis_changed(prev, new, confidence_threshold=0.05)`. -/
def hypothesis_changed (prev new : Hypothesis) : Bool :=
  decide (mkRat 5 100 ≤ |qsub new.confidence prev.confidence|)
  || !setEqL (evidenceSignature prev.evidence) (evidenceSignature new.evidence)
  || !setEqL (evidenceSignature prev.counter_evidence) (evidenceSignature new.counter_evidence)
  || !(prev.next_tests == new.next_tests)

/-- Model of `_is_valid_hypotheses(output)`: `none` models both Python `None` and the
falsy empty dict. -/
def is_valid_hypotheses : Option ReasonerOutput → Bool
  | none => false
  | some o =>
    match o.hypotheses_valid with
    | some b => b
    | none => !o.hypotheses.isEmpty

/-- Model of `{_hypothesis_key(h): h for h in prev_hypotheses if _hypothesis_key(h)}`. -/
def prevHypothesisMap (prevHypotheses : List Hypothesis) : List (String × Hypothesis) :=
  prevHypotheses.foldl
    (fun m h =>
      let k := hypothesis_key h
      if k == "" then m else dictSet m k h) []

/-- Accumulator of the merge loop over the new hypotheses. -/
structure MergeAcc where
  merged : List Hypothesis
  updatedAny : Bool
  seenKeys : List String

/-- Loop body of `_merge_reasoner_output` for one new hypothesis. -/
def mergeStep (prevMap : List (String × Hypothesis)) (acc : MergeAcc)
    (hypo : Hypothesis) : MergeAcc :=
  let key := hypothesis_key hypo
  match if key == "" then none else alookup prevMap key with
  | some prevH =>
    if hypothesis_changed prevH hypo then
      { merged := acc.merged ++ [{ hypo with merge_updated := some true }]
        updatedAny := true
        seenKeys := acc.seenKeys ++ [key] }
    else
      { merged := acc.merged ++ [{ prevH with merge_updated := some false }]
        updatedAny := acc.updatedAny
        seenKeys := acc.seenKeys ++ [key] }
  | none =>
    { merged := acc.merged ++ [{ hypo with merge_updated := some true }]
      updatedAny := true
      seenKeys := if key == "" then acc.seenKeys else acc.seenKeys ++ [key] }

/-- Model of `_merge_reasoner_output(prev, new)`; `none` models Python `None` and the
falsy empty dict, and `deepcopy` is the identity on immutable values. -/
def merge_reasoner_output (prev new : Option ReasonerOutput) : ReasonerOutput :=
  match prev with
  | none =>
    match new with
    | some n => n
    | none =>
      { hypotheses := [], patient_actions := [], novel_actions := [],
        red_flags := [], hypotheses_valid := none, provisional := false,
        novel_insights := [], provenance := none }
  | some p =>
    if !(is_valid_hypotheses new) then p
    else
      match new with
      | none => p
      | some n =>
        let prevMap := prevHypothesisMap p.hypotheses
        let acc := n.hypotheses.foldl (mergeStep prevMap)
          { merged := [], updatedAny := false, seenKeys := [] }
        let merged := p.hypotheses.foldl
          (fun merged prevH =>
            let k := hypothesis_key prevH
            if !(k == "") && acc.seenKeys.contains k then merged
            else merged ++ [{ prevH with merge_updated := some false }])
          acc.merged
        let mergedOutput := { n with hypotheses := merged }
        if !acc.updatedAny then
          { mergedOutput with
            patient_actions := p.patient_actions
            red_flags := p.red_flags
            novel_insights := p.novel_insights
            novel_actions := p.novel_actions
            provenance := p.provenance }
        else mergedOutput

/-! ## Concrete inputs used by witnesses and counterexamples -/

/-- Oracle for runs with no model loaded (lite mode): the agent path is never
taken. -/
def agent0 : String → String → String → String → Option ℚ := fun _ _ _ _ => none

/-- Rule-message map for a run where `guardrails.yml` supplies no message
(fallback messages are used). -/
def ruleMsg0 : String → Option String := fun _ => none

/-- An empty knowledge-graph store. -/
def kg0 : KGStore := ⟨[], []⟩

/-- An empty case card. -/
def ccEmpty : CaseCard := ⟨[], [], []⟩

/-- A dosing action that fires exactly GR_003 ("mg", in the tests bucket,
no iron/supplement wording). -/
def actDose1 : PAction :=
  { bucket := "tests", task := "Order test 10 mg", why := "check", risk := "low" }

/-- A second action firing exactly GR_003. -/
def actDose2 : PAction :=
  { bucket := "tests", task := "Repeat test 20 mg", why := "check", risk := "low" }

/-- A reasoner output with two offending patient actions. -/
def roPatchBug : ReasonerOutput :=
  { hypotheses := [], patient_actions := [actDose1, actDose2], novel_actions := [],
    red_flags := [], hypotheses_valid := none, provisional := false,
    novel_insights := [], provenance := none }

/-- An INCREASES edge from the Iron anchor node to pattern `p_x`. -/
def edgeC2 : GraphEdge :=
  { id := "e1", «from» := "m_iron", «to» := "p_x", relation := "INCREASES",
    rationale := "", source_label := none }

/-- Subgraph holding only `edgeC2`. -/
def sgC2 : Subgraph := ⟨[], [edgeC2]⟩

/-- Case card with abnormal marker Iron anchored at `m_iron`, signal `p_x`. -/
def ccC2 : CaseCard := ⟨["Iron"], ["m_iron"], ["p_x"]⟩

/-- Iron observed LOW. -/
def labsC2 : List Lab := [⟨"Iron", "LOW"⟩]

/-- Scoring state holding the baseline score for `p_x`. -/
def stC2 : EvState := ⟨[], [], initScores ["p_x"], []⟩

/-- Edge-free subgraph for simple evidence runs. -/
def sgW : Subgraph := ⟨[], []⟩

/-- The bundle `build_evidence` produces on `ccC2`/`sgW`/`labsC2`
(no qualifying edges: the baseline survives). -/
def bW : EvidenceBundle :=
  { subgraph := sgW, supports := [], contradictions := [],
    candidate_scores := [("p_x", mkRat 1 2)], top_discriminators := [],
    allowed_claims := ALLOWED_CLAIMS }

/-- A simple hypothesis used by the merge witnesses. -/
def hypW : Hypothesis :=
  { id := "H1", name := "Iron deficiency anemia (possible)",
    confidence := mkRat 1 2, evidence := [], counter_evidence := [],
    next_tests := [], what_would_change_my_mind := [], reasoning := "",
    merge_updated := none }

/-- A prior-turn patient action. -/
def actPrevW : PAction :=
  { bucket := "tests", task := "Ask clinician about a test", why := "w", risk := "low" }

/-- A prior-turn output with one hypothesis and side fields. -/
def prevW : ReasonerOutput :=
  { hypotheses := [hypW], patient_actions := [actPrevW], novel_actions := [],
    red_flags := ["follow up"], hypotheses_valid := some true,
    provisional := false, novel_insights := [], provenance := none }

/-- An invalid new output (explicitly flagged). -/
def invalidNewW : ReasonerOutput :=
  { hypotheses := [], patient_actions := [], novel_actions := [], red_flags := [],
    hypotheses_valid := some false, provisional := false, novel_insights := [],
    provenance := none }

/-- A new-turn output repeating `hypW` with no content change and empty side
fields. -/
def newW : ReasonerOutput :=
  { hypotheses := [hypW], patient_actions := [], novel_actions := [],
    red_flags := [], hypotheses_valid := none, provisional := false,
    novel_insights := [], provenance := none }

/-- Two-node, edge-free knowledge graph for the subgraph-determinism
counterexample. -/
def kgC8 : KGStore :=
  ⟨[ { id := "a", type := "Marker", label := "A", description := "", dynamic := false },
     { id := "b", type := "Marker", label := "B", description := "", dynamic := false } ], []⟩

/-- Empty `marker_to_node.yml` map (fallback ids used). -/
def m2n0 : List (String × String) := []

/-- A dynamic-edge rule table linking marker ANC to pattern `p_x`. -/
def cfg9 : List (String × List DynRule) :=
  [("ANC", [{ pattern_id := "p_x", relation := "SUPPORTS", rationale := "low ANC" }])]

/-- Case card whose ANC anchor is absent from the subgraph. -/
def cc9 : CaseCard := ⟨["ANC"], ["m_anc"], ["p_x"]⟩

/-- Subgraph containing the pattern node `p_x` only. -/
def sg9 : Subgraph :=
  ⟨[{ id := "p_x", type := "Pattern", label := "X", description := "", dynamic := false }], []⟩

/-- The dynamic edge `extend_subgraph` synthesizes on `cc9`/`sg9`. -/
def edge9 : GraphEdge :=
  { id := "e_dyn_anc_x_1", «from» := "m_anc", «to» := "p_x", relation := "SUPPORTS",
    rationale := "low ANC", source_label := some "dynamic" }


/-- The evidence item the `ccC2`/`sgC2`/`labsC2` run produces (direction
mismatch: INCREASES edge, LOW status, normalized to a contradiction). -/
def itemC2 : EvidenceItem :=
  { pattern_id := "p_x", marker := "Iron", marker_node_id := "m_iron",
    marker_status := "LOW", edge_id := "e1", relation := "INCREASES",
    weight := mkRat 1 10, label := "Iron LOW increases p_x" }

/-- The bundle `build_evidence` produces on `ccC2`/`sgC2`/`labsC2`. -/
def bC2 : EvidenceBundle :=
  { subgraph := sgC2, supports := [], contradictions := [itemC2],
    candidate_scores := [("p_x", mkRat 2 5)], top_discriminators := [itemC2],
    allowed_claims := ALLOWED_CLAIMS }

/-! ## Lemmas and claim theorems -/

theorem qadd_eq (a b : ℚ) : qadd a b = a + b :=
  (Rat.add_def' a b).symm

theorem qsub_eq (a b : ℚ) : qsub a b = a - b :=
  (Rat.sub_def' a b).symm

theorem clamp01_nonneg (q : ℚ) : 0 ≤ clamp01 q :=
  le_max_left 0 _

theorem clamp01_le_one (q : ℚ) : clamp01 q ≤ 1 :=
  max_le zero_le_one (min_le_left 1 q)

theorem alookup_eq_some {α : Type} (m : List (String × α)) (k : String) (v : α)
    (h : alookup m k = some v) : ∃ kv, kv ∈ m ∧ kv.1 = k ∧ kv.2 = v := by
  unfold alookup at h
  cases hf : m.find? (fun kv => kv.1 == k) with
  | none => rw [hf] at h; exact absurd h (by simp)
  | some kv =>
    rw [hf] at h
    simp only [Option.map_some'] at h
    have hp := List.find?_some hf
    simp only [beq_iff_eq] at hp
    exact ⟨kv, List.mem_of_find?_eq_some hf, hp, Option.some_inj.mp h⟩

theorem alookup_isSome_of_mem_keys {α : Type} (m : List (String × α)) (k : String)
    (h : k ∈ m.map Prod.fst) : (alookup m k).isSome := by
  unfold alookup
  rcases List.mem_map.mp h with ⟨kv, hkv, hfst⟩
  have : (m.find? (fun kv => kv.1 == k)).isSome := by
    rw [List.find?_isSome]
    exact ⟨kv, hkv, by simp [hfst]⟩
  obtain ⟨x, hx⟩ := Option.isSome_iff_exists.mp this
  rw [hx]
  rfl

theorem dictSet_mem_keys {α : Type} (m : List (String × α)) (k : String) (v : α)
    (x : String) :
    x ∈ (dictSet m k v).map Prod.fst ↔ x ∈ m.map Prod.fst ∨ x = k := by
  unfold dictSet
  by_cases hany : (m.any fun kv => kv.1 == k) = true
  · rw [if_pos hany]
    simp only [List.map_map, List.mem_map, Function.comp_apply]
    constructor
    · rintro ⟨kv, hkv, hx⟩
      by_cases hk : kv.1 = k
      · right
        simp only [hk, beq_self_eq_true, if_true] at hx
        exact hx.symm
      · left
        refine ⟨kv, hkv, ?_⟩
        simpa [hk] using hx
    · rintro (hx | rfl)
      · rcases hx with ⟨kv, hkv, hfst⟩
        refine ⟨kv, hkv, ?_⟩
        by_cases hk : kv.1 = k
        · simp only [hk, beq_self_eq_true, if_true]
          exact hk ▸ hfst
        · simpa [hk] using hfst
      · rcases List.any_eq_true.mp hany with ⟨kv, hkv, hk⟩
        simp only [beq_iff_eq] at hk
        exact ⟨kv, hkv, by simp [hk]⟩
  · rw [if_neg hany]
    simp

theorem mem_of_mem_dictSet {α : Type} (m : List (String × α)) (k : String) (v : α)
    (kv : String × α) (h : kv ∈ dictSet m k v) : kv ∈ m ∨ kv.2 = v := by
  unfold dictSet at h
  by_cases hany : (m.any fun kv => kv.1 == k) = true
  · rw [if_pos hany] at h
    rcases List.mem_map.mp h with ⟨kv', hkv', he⟩
    by_cases hk : kv'.1 = k
    · right
      simp only [hk, beq_self_eq_true, if_true] at he
      rw [← he]
    · left
      have he' : kv' = kv := by simpa [hk] using he
      exact he' ▸ hkv'
  · rw [if_neg hany] at h
    rcases List.mem_append.mp h with h | h
    · exact Or.inl h
    · right
      simp only [List.mem_singleton] at h
      simp [h]

theorem foldl_dictSet_keys {α : Type} (c : α) :
    ∀ (l : List String) (m : List (String × α)) (x : String),
      x ∈ (l.foldl (fun m pid => dictSet m pid c) m).map Prod.fst ↔
        x ∈ m.map Prod.fst ∨ x ∈ l := by
  intro l
  induction l with
  | nil => simp
  | cons p t ih =>
    intro m x
    rw [List.foldl_cons, ih, dictSet_mem_keys]
    simp only [List.mem_cons]
    tauto

theorem foldl_dictSet_values {α : Type} (c : α) :
    ∀ (l : List String) (m : List (String × α)),
      (∀ kv ∈ m, kv.2 = c) →
      ∀ kv ∈ l.foldl (fun m pid => dictSet m pid c) m, kv.2 = c := by
  intro l
  induction l with
  | nil => intro m hm kv hkv; exact hm kv hkv
  | cons p t ih =>
    intro m hm kv hkv
    refine ih (dictSet m p c) ?_ kv hkv
    intro kv' hkv'
    rcases mem_of_mem_dictSet m p c kv' hkv' with h | h
    · exact hm kv' h
    · exact h

theorem initScores_keys_mem (signals : List String) (s : String) :
    s ∈ (initScores signals).map Prod.fst ↔ s ∈ signals := by
  unfold initScores
  rw [foldl_dictSet_keys]
  simp

theorem initScores_alookup (signals : List String) (s : String) (hs : s ∈ signals) :
    alookup (initScores signals) s = some (mkRat 1 2) := by
  have hkey : s ∈ (initScores signals).map Prod.fst := (initScores_keys_mem signals s).mpr hs
  have hsome := alookup_isSome_of_mem_keys _ _ hkey
  obtain ⟨v, hv⟩ := Option.isSome_iff_exists.mp hsome
  obtain ⟨kv, hkv, _, hval⟩ := alookup_eq_some _ _ _ hv
  have : kv.2 = mkRat 1 2 :=
    foldl_dictSet_values (mkRat 1 2) signals [] (by simp) kv hkv
  rw [hv]
  exact congrArg some (hval ▸ this)

theorem updateScore_keys (m : List (String × ℚ)) (k : String) (f : ℚ → ℚ) :
    (updateScore m k f).map Prod.fst = m.map Prod.fst := by
  unfold updateScore
  rw [List.map_map]
  apply List.map_congr_left
  intro kv _
  by_cases h : kv.1 = k <;> simp [h]

theorem pushItem_scores (st : EvState) (item : EvidenceItem) (sr pid : String) :
    (pushItem st item sr pid).scores =
      if sr == "SUPPORTS" then updateScore st.scores pid (fun s => qadd s item.weight)
      else if sr == "CONTRADICTS" then updateScore st.scores pid (fun s => qsub s item.weight)
      else st.scores := by
  unfold pushItem
  dsimp only
  rw [apply_ite (fun s : EvState => s.scores), apply_ite (fun s : EvState => s.scores)]

theorem pushItem_mem_supports (st : EvState) (item : EvidenceItem) (sr pid : String)
    (i : EvidenceItem) (hi : i ∈ (pushItem st item sr pid).supports) :
    i ∈ st.supports ∨ i = item := by
  unfold pushItem at hi
  dsimp only at hi
  rw [apply_ite (fun s : EvState => s.supports), apply_ite (fun s : EvState => s.supports)]
    at hi
  split at hi
  · rcases List.mem_append.mp hi with hi | hi
    · exact Or.inl hi
    · exact Or.inr (List.mem_singleton.mp hi)
  · split at hi
    · exact Or.inl hi
    · exact Or.inl hi

theorem pushItem_mem_contradictions (st : EvState) (item : EvidenceItem) (sr pid : String)
    (i : EvidenceItem) (hi : i ∈ (pushItem st item sr pid).contradictions) :
    i ∈ st.contradictions ∨ i = item := by
  unfold pushItem at hi
  dsimp only at hi
  rw [apply_ite (fun s : EvState => s.contradictions),
    apply_ite (fun s : EvState => s.contradictions)] at hi
  split at hi
  · exact Or.inl hi
  · split at hi
    · rcases List.mem_append.mp hi with hi | hi
      · exact Or.inl hi
      · exact Or.inr (List.mem_singleton.mp hi)
    · exact Or.inl hi

theorem pushItem_mem_discs (st : EvState) (item : EvidenceItem) (sr pid : String)
    (i : EvidenceItem) (hi : i ∈ (pushItem st item sr pid).discs) :
    i ∈ st.discs ∨ i = item := by
  unfold pushItem at hi
  dsimp only at hi
  rw [apply_ite (fun s : EvState => s.discs), apply_ite (fun s : EvState => s.discs)] at hi
  split at hi
  · rcases List.mem_append.mp hi with hi | hi
    · exact Or.inl hi
    · exact Or.inr (List.mem_singleton.mp hi)
  · split at hi
    · rcases List.mem_append.mp hi with hi | hi
      · exact Or.inl hi
      · exact Or.inr (List.mem_singleton.mp hi)
    · rcases List.mem_append.mp hi with hi | hi
      · exact Or.inl hi
      · exact Or.inr (List.mem_singleton.mp hi)

theorem processEdge_scores_keys (agent : String → String → String → String → Option ℚ)
    (kg : KGStore) (sg : Subgraph) (signals : List String)
    (marker nid status : String) (st : EvState) (edge : GraphEdge) :
    (processEdge agent kg sg signals marker nid status st edge).scores.map Prod.fst =
      st.scores.map Prod.fst := by
  unfold processEdge
  split
  · split
    · rfl
    · dsimp only
      rw [pushItem_scores]
      split
      · rw [updateScore_keys]
      · split
        · rw [updateScore_keys]
        · rfl
  · rfl

theorem edges_fold_scores_keys (agent : String → String → String → String → Option ℚ)
    (kg : KGStore) (sg : Subgraph) (signals : List String) (marker nid status : String) :
    ∀ (edges : List GraphEdge) (st : EvState),
      ((edges.foldl (processEdge agent kg sg signals marker nid status) st).scores).map
        Prod.fst = st.scores.map Prod.fst := by
  intro edges
  induction edges with
  | nil => intro st; rfl
  | cons e t ih =>
    intro st
    rw [List.foldl_cons, ih, processEdge_scores_keys]

theorem zipScan_invariant (agent : String → String → String → String → Option ℚ)
    (kg : KGStore) (sg : Subgraph) (signals : List String)
    (msd : List (String × String)) (P : EvState → Prop)
    (hstep : ∀ (st : EvState) (mk : String × String) (status : String),
      alookup msd mk.1 = some status → P st →
      P (sg.edges.foldl (processEdge agent kg sg signals mk.1 mk.2 status) st)) :
    ∀ (l : List (String × String)) (ost : Option EvState),
      (∀ st, ost = some st → P st) →
      ∀ st,
        l.foldl
          (fun ost mk => ost.bind fun st =>
            (alookup msd mk.1).map fun status =>
              sg.edges.foldl (processEdge agent kg sg signals mk.1 mk.2 status) st)
          ost = some st →
        P st := by
  intro l
  induction l with
  | nil => intro ost h0 st hst; exact h0 st hst
  | cons mk t ih =>
    intro ost h0 st hst
    rw [List.foldl_cons] at hst
    refine ih _ ?_ st hst
    intro st1 hst1
    cases ost with
    | none => simp at hst1
    | some st0 =>
      simp only [Option.some_bind] at hst1
      cases hlk : alookup msd mk.1 with
      | none => rw [hlk] at hst1; simp at hst1
      | some status =>
        rw [hlk] at hst1
        simp only [Option.map_some'] at hst1
        rw [← Option.some_inj.mp hst1]
        exact hstep st0 mk status hlk (h0 st0 rfl)

theorem build_evidence_eq_some (agent : String → String → String → String → Option ℚ)
    (kg : KGStore) (cc : CaseCard) (sg : Subgraph) (labs : List Lab)
    (b : EvidenceBundle) (hb : build_evidence agent kg cc sg labs = some b) :
    ∃ st : EvState,
      (cc.abnormal_markers.zip cc.abnormal_marker_node_ids).foldl
        (fun ost mk => ost.bind fun st =>
          (alookup (labs.foldl (fun m lab => dictSet m lab.marker lab.status) []) mk.1).map
            fun status => sg.edges.foldl (processEdge agent kg sg cc.signals mk.1 mk.2 status) st)
        (some ⟨[], [], initScores cc.signals, []⟩) = some st
      ∧ b = { subgraph := sg, supports := st.supports, contradictions := st.contradictions,
              candidate_scores := st.scores.map (fun kv => (kv.1, clamp01 kv.2)),
              top_discriminators := (List.insertionSort weightDesc st.discs).take 5,
              allowed_claims := ALLOWED_CLAIMS } := by
  have hb2 :
      Option.map
        (fun st : EvState =>
          ({ subgraph := sg, supports := st.supports, contradictions := st.contradictions,
             candidate_scores := st.scores.map (fun kv => (kv.1, clamp01 kv.2)),
             top_discriminators := (List.insertionSort weightDesc st.discs).take 5,
             allowed_claims := ALLOWED_CLAIMS } : EvidenceBundle))
        ((cc.abnormal_markers.zip cc.abnormal_marker_node_ids).foldl
          (fun ost mk => ost.bind fun st =>
            (alookup (labs.foldl (fun m lab => dictSet m lab.marker lab.status) []) mk.1).map
              fun status => sg.edges.foldl (processEdge agent kg sg cc.signals mk.1 mk.2 status) st)
          (some ⟨[], [], initScores cc.signals, []⟩)) = some b := hb
  clear hb
  cases hscan : (cc.abnormal_markers.zip cc.abnormal_marker_node_ids).foldl
      (fun ost mk => ost.bind fun st =>
        (alookup (labs.foldl (fun m lab => dictSet m lab.marker lab.status) []) mk.1).map
          fun status => sg.edges.foldl (processEdge agent kg sg cc.signals mk.1 mk.2 status) st)
      (some ⟨[], [], initScores cc.signals, []⟩) with
  | none =>
    rw [hscan] at hb2
    simp at hb2
  | some st =>
    rw [hscan] at hb2
    simp only [Option.map_some'] at hb2
    exact ⟨st, rfl, (Option.some_inj.mp hb2).symm⟩

/-- C10: for every case card, subgraph and labs on which `build_evidence`
succeeds, the `candidate_scores` mapping has exactly the case card's active
signals as its key set: the keys are those of the 0.5-prior initialization
(accumulation never adds a key), every signal is initialized to the 0.5 prior,
and key-set membership coincides with signal membership. -/
theorem candidate_scores_key_set
    (agent : String → String → String → String → Option ℚ) (kg : KGStore)
    (cc : CaseCard) (sg : Subgraph) (labs : List Lab) (b : EvidenceBundle)
    (hb : build_evidence agent kg cc sg labs = some b) :
    b.candidate_scores.map Prod.fst = (initScores cc.signals).map Prod.fst
    ∧ (∀ s ∈ cc.signals, alookup (initScores cc.signals) s = some (mkRat 1 2))
    ∧ (∀ s, s ∈ b.candidate_scores.map Prod.fst ↔ s ∈ cc.signals) := by
  obtain ⟨st, hscan, hbEq⟩ := build_evidence_eq_some agent kg cc sg labs b hb
  have hkeys : st.scores.map Prod.fst = (initScores cc.signals).map Prod.fst := by
    refine zipScan_invariant agent kg sg cc.signals _
      (fun st' => st'.scores.map Prod.fst = (initScores cc.signals).map Prod.fst)
      ?_ _ _ ?_ st hscan
    · intro st' mk status _ hP
      rw [edges_fold_scores_keys]
      exact hP
    · intro st' h
      rw [← Option.some_inj.mp h]
  have hfst : b.candidate_scores.map Prod.fst = st.scores.map Prod.fst := by
    rw [hbEq]
    dsimp only
    rw [List.map_map]
    apply List.map_congr_left
    intro kv _
    rfl
  refine ⟨hfst.trans hkeys, fun s hs => initScores_alookup cc.signals s hs, fun s => ?_⟩
  rw [hfst, hkeys]
  exact initScores_keys_mem cc.signals s

theorem candidate_scores_key_set_witness :
    build_evidence agent0 kg0 ccC2 sgW labsC2 = some bW
    ∧ bW.candidate_scores.map Prod.fst = (initScores ccC2.signals).map Prod.fst
    ∧ (∀ s, s ∈ bW.candidate_scores.map Prod.fst ↔ s ∈ ccC2.signals) :=
  ⟨by decide,
    (candidate_scores_key_set agent0 kg0 ccC2 sgW labsC2 bW (by decide)).1,
    (candidate_scores_key_set agent0 kg0 ccC2 sgW labsC2 bW (by decide)).2.2⟩

theorem foldl_preserves {α β : Type} (P : β → Prop) (f : β → α → β)
    (hf : ∀ b a, P b → P (f b a)) :
    ∀ (l : List α) (b : β), P b → P (l.foldl f b) := by
  intro l
  induction l with
  | nil => exact fun b hb => hb
  | cons a t ih => intro b hb; exact ih _ (hf b a hb)

theorem snd_mem_of_mem_enumFrom {α : Type} :
    ∀ (l : List α) (n : Nat) (ip : Nat × α), ip ∈ l.enumFrom n → ip.2 ∈ l := by
  intro l
  induction l with
  | nil => intro n ip h; simp at h
  | cons a t ih =>
    intro n ip h
    rw [List.enumFrom_cons] at h
    rcases List.mem_cons.mp h with h | h
    · rw [h]; exact List.mem_cons_self a t
    · exact List.mem_cons_of_mem a (ih (n + 1) ip h)

theorem snd_mem_of_mem_enum {α : Type} (l : List α) (ip : Nat × α) (h : ip ∈ l.enum) :
    ip.2 ∈ l :=
  snd_mem_of_mem_enumFrom l 0 ip h

theorem parse_ranking_line_bounds (ms : List (String × ℚ)) :
    ∀ kv ∈ parse_ranking_line ms, 0 ≤ kv.2 ∧ kv.2 ≤ 1 := by
  unfold parse_ranking_line
  refine foldl_preserves (fun out : List (String × ℚ) => ∀ kv ∈ out, 0 ≤ kv.2 ∧ kv.2 ≤ 1) _ ?_ ms [] (by simp)
  intro out m hP
  split
  · next hm =>
    intro kv hkv
    rcases mem_of_mem_dictSet _ _ _ kv hkv with h | h
    · exact hP kv h
    · rw [h]; exact hm
  · exact hP

theorem mem_lite_fold (kg : KGStore) (b : EvidenceBundle) :
    ∀ (l : List (Nat × (String × ℚ))) (acc : List Hypothesis) (h : Hypothesis),
      h ∈ l.foldl
        (fun acc ip =>
          if ip.2.2 < mkRat 1 10 then acc
          else acc ++ [liteHypothesis kg b ip.1 ip.2.1 ip.2.2]) acc →
      h ∈ acc ∨ ∃ ip ∈ l, h = liteHypothesis kg b ip.1 ip.2.1 ip.2.2 := by
  intro l
  induction l with
  | nil => intro acc h hh; exact Or.inl hh
  | cons ip t ih =>
    intro acc h hh
    rw [List.foldl_cons] at hh
    rcases ih _ h hh with hacc | ⟨ip', hip', he⟩
    · by_cases hlt : ip.2.2 < mkRat 1 10
      · rw [if_pos hlt] at hacc
        exact Or.inl hacc
      · rw [if_neg hlt] at hacc
        rcases List.mem_append.mp hacc with hacc | hacc
        · exact Or.inl hacc
        · right
          refine ⟨ip, List.mem_cons_self ip t, ?_⟩
          simpa using hacc
    · exact Or.inr ⟨ip', List.mem_cons_of_mem ip hip', he⟩

/-- C7: candidate scores are clamped to `[0, 1]`, stage-1 hypothesis
confidences are candidate scores and lie in `[0, 1]`, model re-ranking only
overwrites confidences with parsed values in `[0, 1]`, and critic
`lower_confidence` ops clamp to `[0, 1]` — so every stage keeps every
confidence within `[0, 1]`. -/
theorem confidence_bounds :
    (∀ (agent : String → String → String → String → Option ℚ) (kg : KGStore)
      (cc : CaseCard) (sg : Subgraph) (labs : List Lab) (b : EvidenceBundle),
      build_evidence agent kg cc sg labs = some b →
      ∀ kv ∈ b.candidate_scores, 0 ≤ kv.2 ∧ kv.2 ≤ 1)
    ∧ (∀ (agent : String → String → String → String → Option ℚ) (kg : KGStore)
      (cc : CaseCard) (sg : Subgraph) (labs : List Lab) (b : EvidenceBundle),
      build_evidence agent kg cc sg labs = some b →
      ∀ h ∈ (reason_lite_mode kg b).hypotheses, 0 ≤ h.confidence ∧ h.confidence ≤ 1)
    ∧ (∀ (ms : List (String × ℚ)) (hyps : List Hypothesis),
      (∀ h ∈ hyps, 0 ≤ h.confidence ∧ h.confidence ≤ 1) →
      ∀ h ∈ model_rank_hypotheses (parse_ranking_line ms) hyps,
        0 ≤ h.confidence ∧ h.confidence ≤ 1)
    ∧ (∀ (ro : ReasonerOutput) (ops : List CriticOp),
      (∀ h ∈ ro.hypotheses, 0 ≤ h.confidence ∧ h.confidence ≤ 1) →
      ∀ h ∈ (apply_critic_ops ro ops).hypotheses,
        0 ≤ h.confidence ∧ h.confidence ≤ 1) := by
  have hscores : ∀ (agent : String → String → String → String → Option ℚ) (kg : KGStore)
      (cc : CaseCard) (sg : Subgraph) (labs : List Lab) (b : EvidenceBundle),
      build_evidence agent kg cc sg labs = some b →
      ∀ kv ∈ b.candidate_scores, 0 ≤ kv.2 ∧ kv.2 ≤ 1 := by
    intro agent kg cc sg labs b hb kv hkv
    obtain ⟨st, _, hbEq⟩ := build_evidence_eq_some agent kg cc sg labs b hb
    rw [hbEq] at hkv
    dsimp only at hkv
    rcases List.mem_map.mp hkv with ⟨kv', _, he⟩
    rw [← he]
    exact ⟨clamp01_nonneg kv'.2, clamp01_le_one kv'.2⟩
  refine ⟨hscores, ?_, ?_, ?_⟩
  · -- stage-1 confidences
    intro agent kg cc sg labs b hb h hh
    unfold reason_lite_mode at hh
    by_cases hempty : b.candidate_scores.isEmpty
    · rw [if_pos hempty] at hh
      simp at hh
    · rw [if_neg hempty] at hh
      dsimp only at hh
      rcases mem_lite_fold kg b _ _ h hh with hfalse | ⟨ip, hip, he⟩
      · simp at hfalse
      · have hmem : ip.2 ∈ List.insertionSort scoreDesc b.candidate_scores :=
          snd_mem_of_mem_enum _ ip hip
        have hmem2 : ip.2 ∈ b.candidate_scores :=
          (List.mem_insertionSort scoreDesc).mp hmem
        have hb2 := hscores agent kg cc sg labs b hb ip.2 hmem2
        rw [he]
        exact hb2
  · -- model re-ranking
    intro ms hyps hP h hh
    unfold model_rank_hypotheses at hh
    by_cases hrank : (parse_ranking_line ms).isEmpty
    · rw [if_pos hrank] at hh
      exact hP h hh
    · rw [if_neg hrank] at hh
      rcases List.mem_map.mp hh with ⟨h0, hh0, he⟩
      cases hlk : alookup (parse_ranking_line ms) (upperS h0.id) with
      | none =>
        rw [hlk] at he
        rw [← he]
        exact hP h0 hh0
      | some v =>
        rw [hlk] at he
        obtain ⟨kv, hkv, _, hval⟩ := alookup_eq_some _ _ _ hlk
        have := parse_ranking_line_bounds ms kv hkv
        rw [← he]
        dsimp only
        rw [hval] at this
        exact this
  · -- critic ops
    intro ro ops hP
    set P : ReasonerOutput → Prop :=
      fun r => ∀ h ∈ r.hypotheses, 0 ≤ h.confidence ∧ h.confidence ≤ 1 with hPdef
    have h1 : ∀ (r : ReasonerOutput) (op : CriticOp), P r →
        P (if op.op == "remove_hypothesis" then
            match op.id with
            | some hid =>
              if hid == "" then r
              else { r with hypotheses := r.hypotheses.filter (fun h => !(upperS h.id == hid)) }
            | none => r
          else r) := by
      intro r op hPr
      split
      · cases op.id with
        | none => exact hPr
        | some hid =>
          dsimp only
          split
          · exact hPr
          · intro h hh
            exact hPr h (List.mem_of_mem_filter hh)
      · exact hPr
    have h2 : ∀ (r : ReasonerOutput) (op : CriticOp), P r →
        P (if op.op == "lower_confidence" then
            match op.id, op.value with
            | some hid, some v =>
              if hid == "" then r
              else { r with hypotheses := r.hypotheses.map (fun h =>
                if upperS h.id == hid then { h with confidence := max 0 (min 1 v) } else h) }
            | _, _ => r
          else r) := by
      intro r op hPr
      split
      · match op.id, op.value with
        | some hid, some v =>
          dsimp only
          split
          · exact hPr
          · intro h hh
            rcases List.mem_map.mp hh with ⟨h0, hh0, he⟩
            by_cases hc : (upperS h0.id == hid) = true
            · rw [hc] at he
              simp only [if_true] at he
              rw [← he]
              refine ⟨le_max_left 0 _, ?_⟩
              exact max_le zero_le_one (min_le_left 1 v)
            · rw [Bool.not_eq_true] at hc
              rw [hc] at he
              simp only [Bool.false_eq_true, if_false] at he
              rw [← he]
              exact hPr h0 hh0
        | some _, none => exact hPr
        | none, some _ => exact hPr
        | none, none => exact hPr
      · exact hPr
    have h3 : ∀ (r : ReasonerOutput) (op : CriticOp), P r →
        P (if op.op == "remove_action" then
            match op.scope, op.index with
            | some scope, some idx =>
              if scope == "patient_actions" then
                (if 0 ≤ idx ∧ idx.toNat < r.patient_actions.length then
                  { r with patient_actions := r.patient_actions.eraseIdx idx.toNat }
                else r)
              else if scope == "novel_actions" then
                (if 0 ≤ idx ∧ idx.toNat < r.novel_actions.length then
                  { r with novel_actions := r.novel_actions.eraseIdx idx.toNat }
                else r)
              else r
            | _, _ => r
          else r) := by
      intro r op hPr
      split
      · match op.scope, op.index with
        | some scope, some idx =>
          dsimp only
          split
          · split
            · exact hPr
            · exact hPr
          · split
            · split
              · exact hPr
              · exact hPr
            · exact hPr
        | some _, none => exact hPr
        | none, some _ => exact hPr
        | none, none => exact hPr
      · exact hPr
    have hsort : ∀ r : ReasonerOutput, P r →
        P (if r.hypotheses.isEmpty then r
          else { r with hypotheses := List.insertionSort confDesc r.hypotheses }) := by
      intro r hPr
      split
      · exact hPr
      · intro h hh
        exact hPr h ((List.mem_insertionSort confDesc).mp hh)
    exact fun h hh =>
      hsort _
        (foldl_preserves P _ h3 ops _
          (foldl_preserves P _ h2 ops _
            (foldl_preserves P _ h1 ops ro hP))) h hh

theorem markerStatus_keys (labs : List Lab) :
    ∀ (m : List (String × String)) (x : String),
      x ∈ (labs.foldl (fun m lab => dictSet m lab.marker lab.status) m).map Prod.fst ↔
        x ∈ m.map Prod.fst ∨ x ∈ labs.map Lab.marker := by
  induction labs with
  | nil => simp
  | cons lab t ih =>
    intro m x
    rw [List.foldl_cons, ih, dictSet_mem_keys]
    simp only [List.map_cons, List.mem_cons]
    tauto

theorem processEdge_marker_items (agent : String → String → String → String → Option ℚ)
    (kg : KGStore) (sg : Subgraph) (signals : List String)
    (marker nid status : String) (M : List String) (hm : marker ∈ M)
    (st : EvState) (edge : GraphEdge)
    (hP : (∀ i ∈ st.supports, i.marker ∈ M) ∧ (∀ i ∈ st.contradictions, i.marker ∈ M)
      ∧ (∀ i ∈ st.discs, i.marker ∈ M)) :
    (∀ i ∈ (processEdge agent kg sg signals marker nid status st edge).supports, i.marker ∈ M)
    ∧ (∀ i ∈ (processEdge agent kg sg signals marker nid status st edge).contradictions,
        i.marker ∈ M)
    ∧ (∀ i ∈ (processEdge agent kg sg signals marker nid status st edge).discs,
        i.marker ∈ M) := by
  obtain ⟨hs, hc, hd⟩ := hP
  unfold processEdge
  split
  · split
    · exact ⟨hs, hc, hd⟩
    · dsimp only
      refine ⟨fun i hi => ?_, fun i hi => ?_, fun i hi => ?_⟩
      · rcases pushItem_mem_supports _ _ _ _ i hi with h | h
        · exact hs i h
        · rw [h]; exact hm
      · rcases pushItem_mem_contradictions _ _ _ _ i hi with h | h
        · exact hc i h
        · rw [h]; exact hm
      · rcases pushItem_mem_discs _ _ _ _ i hi with h | h
        · exact hd i h
        · rw [h]; exact hm
  · exact ⟨hs, hc, hd⟩

theorem build_evidence_markers (agent : String → String → String → String → Option ℚ)
    (kg : KGStore) (cc : CaseCard) (sg : Subgraph) (labs : List Lab)
    (b : EvidenceBundle) (hb : build_evidence agent kg cc sg labs = some b) :
    (∀ i ∈ b.supports, i.marker ∈ labs.map Lab.marker)
    ∧ (∀ i ∈ b.contradictions, i.marker ∈ labs.map Lab.marker)
    ∧ (∀ i ∈ b.top_discriminators, i.marker ∈ labs.map Lab.marker) := by
  obtain ⟨st, hscan, hbEq⟩ := build_evidence_eq_some agent kg cc sg labs b hb
  have hst : (∀ i ∈ st.supports, i.marker ∈ labs.map Lab.marker)
      ∧ (∀ i ∈ st.contradictions, i.marker ∈ labs.map Lab.marker)
      ∧ (∀ i ∈ st.discs, i.marker ∈ labs.map Lab.marker) := by
    refine zipScan_invariant agent kg sg cc.signals _
      (fun st' => (∀ i ∈ st'.supports, i.marker ∈ labs.map Lab.marker)
        ∧ (∀ i ∈ st'.contradictions, i.marker ∈ labs.map Lab.marker)
        ∧ (∀ i ∈ st'.discs, i.marker ∈ labs.map Lab.marker))
      ?_ _ _ ?_ st hscan
    · intro st' mk status hlk hP
      have hmk : mk.1 ∈ labs.map Lab.marker := by
        obtain ⟨kv, hkv, hfst, _⟩ := alookup_eq_some _ _ _ hlk
        have : mk.1 ∈ (labs.foldl (fun m lab => dictSet m lab.marker lab.status) []).map
            Prod.fst := List.mem_map.mpr ⟨kv, hkv, hfst⟩
        rcases (markerStatus_keys labs [] mk.1).mp this with h | h
        · simp at h
        · exact h
      exact foldl_preserves _ _
        (fun st'' e hP'' =>
          processEdge_marker_items agent kg sg cc.signals mk.1 mk.2 status _ hmk st'' e hP'')
        sg.edges st' hP
    · intro st' h
      rw [← Option.some_inj.mp h]
      exact ⟨by simp, by simp, by simp⟩
  rw [hbEq]
  refine ⟨hst.1, hst.2.1, ?_⟩
  intro i hi
  dsimp only at hi
  have : i ∈ List.insertionSort weightDesc st.discs := List.take_subset 5 _ hi
  exact hst.2.2 i ((List.mem_insertionSort weightDesc).mp this)

/-- C4: on every input on which the evidence builder succeeds, every evidence
and counter-evidence entry of every stage-1 (lite, deterministic) hypothesis
cites a marker present in the input normalized-lab list. -/
theorem stage1_no_invented_markers
    (agent : String → String → String → String → Option ℚ) (kg : KGStore)
    (cc : CaseCard) (sg : Subgraph) (labs : List Lab) (b : EvidenceBundle)
    (hb : build_evidence agent kg cc sg labs = some b) :
    ∀ h ∈ (reason_lite_mode kg b).hypotheses,
      (∀ e ∈ h.evidence, e.marker ∈ labs.map Lab.marker)
      ∧ (∀ e ∈ h.counter_evidence, e.marker ∈ labs.map Lab.marker) := by
  intro h hh
  obtain ⟨hsup, hcon, hdisc⟩ := build_evidence_markers agent kg cc sg labs b hb
  unfold reason_lite_mode at hh
  by_cases hempty : b.candidate_scores.isEmpty
  · rw [if_pos hempty] at hh
    simp at hh
  · rw [if_neg hempty] at hh
    dsimp only at hh
    rcases mem_lite_fold kg b _ _ h hh with hfalse | ⟨ip, _, he⟩
    · simp at hfalse
    · rw [he]
      constructor
      · intro e hev
        unfold liteHypothesis at hev
        dsimp only at hev
        rcases List.mem_map.mp hev with ⟨i, hi, hie⟩
        rw [← hie]
        exact hdisc i (List.mem_of_mem_filter hi)
      · intro e hev
        unfold liteHypothesis at hev
        dsimp only at hev
        rcases List.mem_map.mp hev with ⟨i, hi, hie⟩
        rw [← hie]
        exact hcon i (List.mem_of_mem_filter hi)

/-- C5: for a non-empty prior output, merging with `None` or with an invalid
new output (empty hypotheses or `hypotheses_valid` false) returns the prior
output itself; in the source the returned value is `deepcopy(prev)`, equal to
`prev` as a value and not aliased to it. -/
theorem merge_returns_prev_on_invalid (p n : ReasonerOutput)
    (hn : is_valid_hypotheses (some n) = false) :
    merge_reasoner_output (some p) none = p
    ∧ merge_reasoner_output (some p) (some n) = p := by
  constructor
  · rfl
  · unfold merge_reasoner_output
    rw [hn]
    rfl

theorem merge_returns_prev_on_invalid_witness :
    is_valid_hypotheses (some invalidNewW) = false
    ∧ merge_reasoner_output (some prevW) none = prevW
    ∧ merge_reasoner_output (some prevW) (some invalidNewW) = prevW :=
  ⟨by decide,
    (merge_returns_prev_on_invalid prevW invalidNewW (by decide)).1,
    (merge_returns_prev_on_invalid prevW invalidNewW (by decide)).2⟩

theorem foldl_preserves_mem {α β : Type} (P : β → Prop) (f : β → α → β) :
    ∀ (l : List α), (∀ (b : β) (a : α), a ∈ l → P b → P (f b a)) →
      ∀ b, P b → P (l.foldl f b) := by
  intro l
  induction l with
  | nil => intro _ b hb; exact hb
  | cons a t ih =>
    intro hf b hb
    rw [List.foldl_cons]
    exact ih (fun b' a' ha' hb' => hf b' a' (List.mem_cons_of_mem a ha') hb') _
      (hf b a (List.mem_cons_self a t) hb)

/-- C6: when the new output is valid, every new hypothesis matches a prior one
by id-or-normalized-name, and no matched pair differs in content
(`_hypothesis_changed` is false), the merged output marks every hypothesis
`merge_updated = false` and keeps the prior `patient_actions` and `red_flags`
unchanged. -/
theorem merge_unchanged_is_stable (p n : ReasonerOutput)
    (hvalid : is_valid_hypotheses (some n) = true)
    (hmatch : ∀ h ∈ n.hypotheses, ¬(hypothesis_key h = "")
      ∧ (alookup (prevHypothesisMap p.hypotheses) (hypothesis_key h)).map
          (fun ph => hypothesis_changed ph h) = some false) :
    (∀ h ∈ (merge_reasoner_output (some p) (some n)).hypotheses,
      h.merge_updated = some false)
    ∧ (merge_reasoner_output (some p) (some n)).patient_actions = p.patient_actions
    ∧ (merge_reasoner_output (some p) (some n)).red_flags = p.red_flags := by
  unfold merge_reasoner_output
  rw [hvalid]
  simp only [Bool.not_true, Bool.false_eq_true, if_false]
  set prevMap := prevHypothesisMap p.hypotheses with hprevMap
  set acc := n.hypotheses.foldl (mergeStep prevMap)
    { merged := [], updatedAny := false, seenKeys := [] } with hacc
  have hQ : (∀ h ∈ acc.merged, h.merge_updated = some false) ∧ acc.updatedAny = false := by
    rw [hacc]
    refine foldl_preserves_mem
      (fun a : MergeAcc => (∀ h ∈ a.merged, h.merge_updated = some false)
        ∧ a.updatedAny = false)
      (mergeStep prevMap) n.hypotheses ?_ _ ⟨by simp, rfl⟩
    rintro a hypo hhyp ⟨hmerged, hupd⟩
    obtain ⟨hkey, hlook⟩ := hmatch hypo hhyp
    cases hl : alookup prevMap (hypothesis_key hypo) with
    | none => rw [hl] at hlook; simp at hlook
    | some prevH =>
      rw [hl] at hlook
      simp only [Option.map_some'] at hlook
      have hchanged : hypothesis_changed prevH hypo = false := Option.some_inj.mp hlook
      unfold mergeStep
      have hkb : (hypothesis_key hypo == "") = false := by simpa using hkey
      simp only [hkb, Bool.false_eq_true, if_false, hl, hchanged]
      refine ⟨?_, hupd⟩
      intro h hh
      rcases List.mem_append.mp hh with hh | hh
      · exact hmerged h hh
      · rw [List.mem_singleton.mp hh]
  set merged := p.hypotheses.foldl
    (fun merged prevH =>
      if !(hypothesis_key prevH == "") && acc.seenKeys.contains (hypothesis_key prevH)
      then merged
      else merged ++ [{ prevH with merge_updated := some false }])
    acc.merged with hmergedEq
  have hM : ∀ h ∈ merged, h.merge_updated = some false := by
    rw [hmergedEq]
    refine foldl_preserves
      (fun l : List Hypothesis => ∀ h ∈ l, h.merge_updated = some false) _ ?_
      p.hypotheses _ hQ.1
    intro l prevH hP
    split
    · exact hP
    · intro h hh
      rcases List.mem_append.mp hh with hh | hh
      · exact hP h hh
      · rw [List.mem_singleton.mp hh]
  rw [hQ.2]
  exact ⟨hM, rfl, rfl⟩

theorem merge_unchanged_is_stable_witness :
    is_valid_hypotheses (some newW) = true
    ∧ (∀ h ∈ (merge_reasoner_output (some prevW) (some newW)).hypotheses,
        h.merge_updated = some false)
    ∧ (merge_reasoner_output (some prevW) (some newW)).patient_actions = prevW.patient_actions
    ∧ (merge_reasoner_output (some prevW) (some newW)).red_flags = prevW.red_flags :=
  ⟨by decide,
    (merge_unchanged_is_stable prevW newW (by decide) (by decide)).1,
    (merge_unchanged_is_stable prevW newW (by decide) (by decide)).2.1,
    (merge_unchanged_is_stable prevW newW (by decide) (by decide)).2.2⟩

/-- C2 (corrected): for an INCREASES/DECREASES edge, a status with no
direction (neither HIGH nor LOW) contributes no score update, but a status
whose direction mismatches the relation is normalized to CONTRADICTS and
subtracts the evidence weight from the pattern's score. -/
theorem directional_edge_scoring
    (agent : String → String → String → String → Option ℚ) (kg : KGStore)
    (sg : Subgraph) (signals : List String) (marker nid status : String)
    (st : EvState) (edge : GraphEdge)
    (hrel : edge.relation = "INCREASES" ∨ edge.relation = "DECREASES") :
    ((status ≠ "HIGH" ∧ status ≠ "LOW") →
      (processEdge agent kg sg signals marker nid status st edge).scores = st.scores)
    ∧ (∀ pid, edgePattern signals edge = some pid →
        (edge.«from» = nid ∨ edge.«to» = nid) →
        ((edge.relation = "INCREASES" ∧ status = "LOW") ∨
          (edge.relation = "DECREASES" ∧ status = "HIGH")) →
        (processEdge agent kg sg signals marker nid status st edge).scores =
          updateScore st.scores pid
            (fun s => qsub s (get_evidence_weight agent marker status edge.relation pid))) := by
  constructor
  · rintro ⟨hH, hL⟩
    unfold processEdge
    split
    · cases hep : edgePattern signals edge with
      | none => rfl
      | some pid =>
        dsimp only
        rw [pushItem_scores]
        have hsr : scoringRelationOf edge.relation status = edge.relation := by
          unfold scoringRelationOf infer_support_relation
          rcases hrel with h | h <;> simp [h, hH, hL]
        rw [hsr]
        rcases hrel with h | h <;> simp [h]
    · rfl
  · intro pid hep htouch hmis
    have htouchb : (edge.«from» == nid || edge.«to» == nid) = true := by
      rcases htouch with h | h <;> simp [h]
    unfold processEdge
    rw [if_pos htouchb, hep]
    dsimp only
    rw [pushItem_scores]
    have hsr : scoringRelationOf edge.relation status = "CONTRADICTS" := by
      unfold scoringRelationOf infer_support_relation
      rcases hmis with ⟨h1, h2⟩ | ⟨h1, h2⟩ <;> simp [h1, h2]
    rw [hsr]
    simp

theorem directional_edge_scoring_witness :
    ((("NORMAL" : String) ≠ "HIGH" ∧ ("NORMAL" : String) ≠ "LOW")
      ∧ (processEdge agent0 kg0 sgC2 ["p_x"] "Iron" "m_iron" "NORMAL" stC2 edgeC2).scores
          = stC2.scores)
    ∧ (edgePattern ["p_x"] edgeC2 = some "p_x"
      ∧ (processEdge agent0 kg0 sgC2 ["p_x"] "Iron" "m_iron" "LOW" stC2 edgeC2).scores =
          updateScore stC2.scores "p_x"
            (fun s => qsub s (get_evidence_weight agent0 "Iron" "LOW" edgeC2.relation "p_x"))) :=
  ⟨⟨by decide,
    (directional_edge_scoring agent0 kg0 sgC2 ["p_x"] "Iron" "m_iron" "NORMAL" stC2 edgeC2
      (Or.inl rfl)).1 (by decide)⟩,
   by decide,
   (directional_edge_scoring agent0 kg0 sgC2 ["p_x"] "Iron" "m_iron" "LOW" stC2 edgeC2
      (Or.inl rfl)).2 "p_x" (by decide) (Or.inl rfl) (Or.inl ⟨rfl, rfl⟩)⟩

/-- C2 as stated is false on the code: with the single INCREASES edge from the
Iron anchor to active signal `p_x` and Iron observed LOW (direction mismatch),
the candidate score moves from the 0.5 baseline down to 0.4 — the edge does
contribute a score update. -/
theorem directional_mismatch_updates_score :
    infer_support_relation "INCREASES" "LOW" = "CONTRADICTS"
    ∧ (build_evidence agent0 kg0 ccC2 sgC2 labsC2).map EvidenceBundle.candidate_scores
        = some [("p_x", mkRat 2 5)]
    ∧ (mkRat 2 5 : ℚ) ≠ mkRat 1 2 :=
  ⟨by decide, by decide, by decide⟩

theorem stage1_no_invented_markers_witness :
    build_evidence agent0 kg0 ccC2 sgC2 labsC2 = some bC2
    ∧ ∀ h ∈ (reason_lite_mode kg0 bC2).hypotheses,
        (∀ e ∈ h.evidence, e.marker ∈ labsC2.map Lab.marker)
        ∧ (∀ e ∈ h.counter_evidence, e.marker ∈ labsC2.map Lab.marker) :=
  ⟨by decide, stage1_no_invented_markers agent0 kg0 ccC2 sgC2 labsC2 bC2 (by decide)⟩

theorem confidence_bounds_witness :
    (build_evidence agent0 kg0 ccC2 sgC2 labsC2 = some bC2
      ∧ ∀ kv ∈ bC2.candidate_scores, 0 ≤ kv.2 ∧ kv.2 ≤ 1)
    ∧ (∀ h ∈ (reason_lite_mode kg0 bC2).hypotheses, 0 ≤ h.confidence ∧ h.confidence ≤ 1)
    ∧ (∀ h ∈ model_rank_hypotheses (parse_ranking_line [("h1", mkRat 1 2)]) [hypW],
        0 ≤ h.confidence ∧ h.confidence ≤ 1)
    ∧ (∀ h ∈ (apply_critic_ops prevW []).hypotheses, 0 ≤ h.confidence ∧ h.confidence ≤ 1) :=
  ⟨⟨by decide, confidence_bounds.1 agent0 kg0 ccC2 sgC2 labsC2 bC2 (by decide)⟩,
   confidence_bounds.2.1 agent0 kg0 ccC2 sgC2 labsC2 bC2 (by decide),
   confidence_bounds.2.2.1 [("h1", mkRat 1 2)] [hypW] (by decide),
   confidence_bounds.2.2.2 prevW [] (by decide)⟩

theorem extendApplyRule_preserves (signals : List String) (nodeId : String)
    (sgLen : Nat) (acc : ExtendAcc) (rule : DynRule)
    (hP : acc.nodeIds = acc.nodes.map GraphNode.id ∧ sgLen ≤ acc.edges.length
      ∧ ∀ e ∈ acc.edges.drop sgLen, e.«to» ∈ signals ∧ e.«to» ∈ acc.nodeIds) :
    (extendApplyRule signals nodeId acc rule).nodeIds =
        (extendApplyRule signals nodeId acc rule).nodes.map GraphNode.id
    ∧ sgLen ≤ (extendApplyRule signals nodeId acc rule).edges.length
    ∧ ∀ e ∈ (extendApplyRule signals nodeId acc rule).edges.drop sgLen,
        e.«to» ∈ signals ∧ e.«to» ∈ (extendApplyRule signals nodeId acc rule).nodeIds := by
  obtain ⟨h1, h2, h3⟩ := hP
  unfold extendApplyRule
  by_cases hc1 : (rule.pattern_id == "" || !signals.contains rule.pattern_id) = true
  · rw [if_pos hc1]
    exact ⟨h1, h2, h3⟩
  · rw [if_neg hc1]
    by_cases hc2 : (!acc.nodeIds.contains rule.pattern_id) = true
    · rw [if_pos hc2]
      exact ⟨h1, h2, h3⟩
    · rw [if_neg hc2]
      have hsig : rule.pattern_id ∈ signals := by
        simp only [Bool.or_eq_true, Bool.not_eq_true'] at hc1
        push_neg at hc1
        have := hc1.2
        simp only [ne_eq, Bool.not_eq_false] at this
        simpa using this
      have hnid : rule.pattern_id ∈ acc.nodeIds := by
        simp only [Bool.not_eq_true'] at hc2
        have : acc.nodeIds.contains rule.pattern_id = true := by
          simpa using hc2
        simpa using this
      dsimp only
      refine ⟨h1, le_trans h2 (by simp), ?_⟩
      intro e he
      rw [List.drop_append_of_le_length h2] at he
      rcases List.mem_append.mp he with he | he
      · exact h3 e he
      · rw [List.mem_singleton.mp he]
        exact ⟨hsig, hnid⟩

theorem extendOneNode_preserves (cfg : List (String × List DynRule))
    (markerToLabel : List (String × String)) (signals : List String)
    (sgLen : Nat) (acc : ExtendAcc) (nodeId : String)
    (hP : acc.nodeIds = acc.nodes.map GraphNode.id ∧ sgLen ≤ acc.edges.length
      ∧ ∀ e ∈ acc.edges.drop sgLen, e.«to» ∈ signals ∧ e.«to» ∈ acc.nodeIds) :
    (extendOneNode cfg markerToLabel signals acc nodeId).nodeIds =
        (extendOneNode cfg markerToLabel signals acc nodeId).nodes.map GraphNode.id
    ∧ sgLen ≤ (extendOneNode cfg markerToLabel signals acc nodeId).edges.length
    ∧ ∀ e ∈ (extendOneNode cfg markerToLabel signals acc nodeId).edges.drop sgLen,
        e.«to» ∈ signals ∧ e.«to» ∈ (extendOneNode cfg markerToLabel signals acc nodeId).nodeIds := by
  obtain ⟨h1, h2, h3⟩ := hP
  unfold extendOneNode
  dsimp only
  refine foldl_preserves
    (fun a : ExtendAcc => a.nodeIds = a.nodes.map GraphNode.id ∧ sgLen ≤ a.edges.length
      ∧ ∀ e ∈ a.edges.drop sgLen, e.«to» ∈ signals ∧ e.«to» ∈ a.nodeIds)
    (extendApplyRule signals nodeId)
    (fun b a hb => extendApplyRule_preserves signals nodeId sgLen b a hb) _ _ ?_
  refine ⟨?_, h2, ?_⟩
  · dsimp only
    rw [List.map_append, ← h1]
    rfl
  · intro e he
    dsimp only at he ⊢
    exact ⟨(h3 e he).1, List.mem_append_left _ (h3 e he).2⟩

theorem extend_fold_invariant (cfg : List (String × List DynRule))
    (markerToLabel : List (String × String)) (signals : List String) (sgLen : Nat)
    (dyn : List String) (acc : ExtendAcc)
    (hP : acc.nodeIds = acc.nodes.map GraphNode.id ∧ sgLen ≤ acc.edges.length
      ∧ ∀ e ∈ acc.edges.drop sgLen, e.«to» ∈ signals ∧ e.«to» ∈ acc.nodeIds) :
    (dyn.foldl (extendOneNode cfg markerToLabel signals) acc).nodeIds =
        (dyn.foldl (extendOneNode cfg markerToLabel signals) acc).nodes.map GraphNode.id
    ∧ sgLen ≤ (dyn.foldl (extendOneNode cfg markerToLabel signals) acc).edges.length
    ∧ ∀ e ∈ (dyn.foldl (extendOneNode cfg markerToLabel signals) acc).edges.drop sgLen,
        e.«to» ∈ signals
        ∧ e.«to» ∈ (dyn.foldl (extendOneNode cfg markerToLabel signals) acc).nodeIds :=
  foldl_preserves
    (fun a : ExtendAcc => a.nodeIds = a.nodes.map GraphNode.id ∧ sgLen ≤ a.edges.length
      ∧ ∀ e ∈ a.edges.drop sgLen, e.«to» ∈ signals ∧ e.«to» ∈ a.nodeIds)
    (extendOneNode cfg markerToLabel signals)
    (fun b a hb => extendOneNode_preserves cfg markerToLabel signals sgLen b a hb)
    dyn acc hP

/-- C9: every edge `extend_subgraph` adds beyond the input subgraph's edges
targets a pattern that is an active signal of the case card and is present as
a node of the returned subgraph. -/
theorem dynamic_edges_respect_signals (markerToNode : List (String × String))
    (cfg : List (String × List DynRule)) (cc : CaseCard) (sg : Subgraph) :
    ∀ e ∈ ((extend_subgraph markerToNode cfg cc sg).1.edges).drop sg.edges.length,
      e.«to» ∈ cc.signals
      ∧ e.«to» ∈ ((extend_subgraph markerToNode cfg cc sg).1.nodes.map GraphNode.id) := by
  intro e he
  unfold extend_subgraph at he ⊢
  dsimp only at he ⊢
  have hP := extend_fold_invariant cfg
    (cc.abnormal_markers.foldl (fun m mk => dictSet m (markerToNid markerToNode mk) mk) [])
    cc.signals sg.edges.length
    (cc.abnormal_marker_node_ids.filter
      (fun nid => !(sg.nodes.map (fun n => n.id)).contains nid))
    { nodes := sg.nodes, edges := sg.edges, nodeIds := sg.nodes.map (fun n => n.id),
      suggNodes := [], suggEdges := [], counter := 0 }
    ⟨rfl, le_refl _, by simp⟩
  exact ⟨(hP.2.2 e he).1, hP.1 ▸ (hP.2.2 e he).2⟩

theorem dynamic_edges_respect_signals_witness :
    ((extend_subgraph m2n0 cfg9 cc9 sg9).1.edges).drop sg9.edges.length = [edge9]
    ∧ edge9.«to» ∈ cc9.signals
    ∧ edge9.«to» ∈ ((extend_subgraph m2n0 cfg9 cc9 sg9).1.nodes.map GraphNode.id) :=
  ⟨by decide,
    (dynamic_edges_respect_signals m2n0 cfg9 cc9 sg9 edge9 (by decide)).1,
    (dynamic_edges_respect_signals m2n0 cfg9 cc9 sg9 edge9 (by decide)).2⟩

/-- C1 (code bug, evaluated at the failing input): both patient actions fire
GR_003, the report's removals are at ascending indices 0 and 1 of the same
scope, and applying the patch list in the emitted (strict) order deletes only
the first offending action — the second removal resolves out of range after
the list shrinks and is skipped, so an offending action survives instead of
"exactly the offending actions" being removed. -/
theorem patch_removal_order_failing_input :
    (check_guardrails ruleMsg0 roPatchBug ccEmpty []).patches =
      [{ op := "remove", path := "/patient_actions/0", value := none },
       { op := "remove", path := "/patient_actions/1", value := none }]
    ∧ (applyPatches roPatchBug (check_guardrails ruleMsg0 roPatchBug ccEmpty []).patches).map
        ReasonerOutput.patient_actions = some [actDose2]
    ∧ (apply_action_guardrails ruleMsg0 [actDose2] false "patient_actions").1.map
        FailedRule.id = ["GR_003"] :=
  ⟨by decide, by decide, by decide⟩

/-- C3 (code bug, evaluated at the failing input): GR_003 fires on the first
run; after applying all emitted patches in order, re-running
`check_guardrails` on the patched output still fails with GR_003 — the fired
rule re-triggers because the second same-scope removal was skipped. -/
theorem guardrails_retrigger_failing_input :
    "GR_003" ∈ (check_guardrails ruleMsg0 roPatchBug ccEmpty []).failed_rules.map FailedRule.id
    ∧ ((applyPatches roPatchBug (check_guardrails ruleMsg0 roPatchBug ccEmpty []).patches).map
        (fun r => (check_guardrails ruleMsg0 r ccEmpty []).failed_rules.map FailedRule.id))
        = some ["GR_003"]
    ∧ ((applyPatches roPatchBug (check_guardrails ruleMsg0 roPatchBug ccEmpty []).patches).map
        (fun r => (check_guardrails ruleMsg0 r ccEmpty []).status)) = some "FAIL" :=
  ⟨by decide, by decide, by decide⟩

/-- C8 as stated is false on the code: tier 1 is `list(marker_set)` in
Python's unspecified set-iteration order, not sorted, so the selection is not
determined by the marker-id set — two valid enumerations of the same
recognized-marker set yield different subgraphs. -/
theorem subgraph_tier1_not_sorted :
    IsSetEnum kgC8 ["a", "b"] ["a", "b"]
    ∧ IsSetEnum kgC8 ["a", "b"] ["b", "a"]
    ∧ subgraph_from_markers kgC8 ["a", "b"] 2 60 ≠ subgraph_from_markers kgC8 ["b", "a"] 2 60 :=
  ⟨by decide, by decide, by decide⟩

theorem mem_sortedStrSet (l : List String) (x : String) : x ∈ sortedStrSet l ↔ x ∈ l := by
  unfold sortedStrSet
  rw [List.mem_insertionSort, List.mem_dedup]

theorem nodup_sortedStrSet (l : List String) : (sortedStrSet l).Nodup :=
  ((List.perm_insertionSort _ _).nodup_iff).mpr (List.nodup_dedup l)

theorem not_contains_iff (l : List String) (x : String) : (!l.contains x) = true ↔ x ∉ l := by
  simp

/-- C8 (corrected): `subgraph_from_markers` selects nodes as three priority
tiers truncated to `max_nodes` — (1) the recognized anchors in Python's
set-enumeration order (not sorted, so the selection is deterministic only up
to that enumeration), (2) the anchor-incident endpoints, sorted, (3) the
remaining BFS-reachable nodes, sorted — the tiers are mutually disjoint and
duplicate-free, and the returned edges are exactly the static edges with both
endpoints selected. -/
theorem subgraph_three_tiers (kg : KGStore) (markerIds enum : List String)
    (hops maxNodes : Nat) (henum : IsSetEnum kg markerIds enum) :
    (subgraph_from_markers kg enum hops maxNodes).nodes =
      ((enum ++ priorityTwo kg enum ++ priorityThree kg enum hops).take maxNodes).filterMap
        (kgNodesFind kg)
    ∧ List.Sorted (· ≤ ·) (priorityTwo kg enum)
    ∧ List.Sorted (· ≤ ·) (priorityThree kg enum hops)
    ∧ (∀ x, x ∈ priorityTwo kg enum ↔ x ∈ edgeIncidentList kg enum ∧ x ∉ enum)
    ∧ (∀ x, x ∈ priorityThree kg enum hops ↔
        x ∈ allTwoHopList kg enum hops ∧ x ∉ enum ∧ x ∉ edgeIncidentList kg enum)
    ∧ (enum ++ priorityTwo kg enum ++ priorityThree kg enum hops).Nodup
    ∧ (subgraph_from_markers kg enum hops maxNodes).edges =
        kg.edges.filter (fun e =>
          ((orderedNodeIds kg enum hops).take maxNodes).contains e.«from»
          && ((orderedNodeIds kg enum hops).take maxNodes).contains e.«to») := by
  have hmem2 : ∀ x, x ∈ priorityTwo kg enum ↔
      x ∈ edgeIncidentList kg enum ∧ x ∉ enum := by
    intro x
    unfold priorityTwo
    rw [mem_sortedStrSet, List.mem_filter]
    rw [not_contains_iff]
  have hmem3 : ∀ x, x ∈ priorityThree kg enum hops ↔
      x ∈ allTwoHopList kg enum hops ∧ x ∉ enum ∧ x ∉ edgeIncidentList kg enum := by
    intro x
    unfold priorityThree
    rw [mem_sortedStrSet, List.mem_filter]
    rw [Bool.and_eq_true, not_contains_iff, not_contains_iff]

  refine ⟨rfl, ?_, ?_, hmem2, hmem3, ?_, rfl⟩
  · exact List.sorted_insertionSort _ _
  · exact List.sorted_insertionSort _ _
  · rw [List.nodup_append, List.nodup_append]
    refine ⟨⟨henum.1, nodup_sortedStrSet _, ?_⟩, nodup_sortedStrSet _, ?_⟩
    · intro a ha hap2
      exact ((hmem2 a).mp hap2).2 ha
    · intro a ha hap3
      rcases List.mem_append.mp ha with ha | ha
      · exact ((hmem3 a).mp hap3).2.1 ha
      · exact ((hmem3 a).mp hap3).2.2 ((hmem2 a).mp ha).1

theorem subgraph_three_tiers_witness :
    IsSetEnum kgC8 ["a", "b"] ["a", "b"]
    ∧ List.Sorted (· ≤ ·) (priorityTwo kgC8 ["a", "b"])
    ∧ (["a", "b"] ++ priorityTwo kgC8 ["a", "b"] ++ priorityThree kgC8 ["a", "b"] 2).Nodup :=
  ⟨by decide,
    (subgraph_three_tiers kgC8 ["a", "b"] ["a", "b"] 2 60 (by decide)).2.1,
    (subgraph_three_tiers kgC8 ["a", "b"] ["a", "b"] 2 60 (by decide)).2.2.2.2.2.1⟩
